import Mathlib

/-!
ROS_Keyboard_Control, `src/keyboard_control.cpp`

A shallow embedding of the keyboard teleoperation node
(`SmartCarKeyboardTeleopNode`, its `keyboardLoop`, `stopRobot` and `main`).

Modelling conventions.

* `double` values (velocities, `omp_get_wtime()` readings) are rationals. Copying,
  negating and comparing them is exact. The one `double` operation of the program
  that rounds, the subtraction `omp_get_wtime() - last_ctrl_time` of the rate
  check, is rounded to binary64 (`doubleSub`), and the literal `0.1` it is
  compared with is the binary64 number nearest to 1/10 (`double_0_1`).
* `char c` holds a byte `0..255` (a `Nat`); `switch(c)` promotes it to `int`
  as a signed `char` (`charToInt`).
* Everything the operating system or the ROS runtime answers (results of
  `tcgetattr`, `tcsetattr`, `poll`, `read`, the clock) is supplied by an explicit
  environment; everything the program does to the outside is appended to an
  effect trace.
-/

namespace KeyboardControl

/-! ## Key codes (`#define KEYCODE_*`) -/

def KEYCODE_1 : Int := 0x31
def KEYCODE_2 : Int := 0x32
def KEYCODE_3 : Int := 0x33
def KEYCODE_4 : Int := 0x34
def KEYCODE_5 : Int := 0x35
def KEYCODE_6 : Int := 0x36
def KEYCODE_7 : Int := 0x37
def KEYCODE_8 : Int := 0x38
def KEYCODE_9 : Int := 0x39

def KEYCODE_W : Int := 0x77
def KEYCODE_A : Int := 0x61
def KEYCODE_S : Int := 0x73
def KEYCODE_D : Int := 0x64
def KEYCODE_X : Int := 0x78
def KEYCODE_J : Int := 0x6A
def KEYCODE_K : Int := 0x6B

def KEYCODE_W_CAP : Int := 0x57
def KEYCODE_A_CAP : Int := 0x41
def KEYCODE_S_CAP : Int := 0x53
def KEYCODE_D_CAP : Int := 0x44
def KEYCODE_X_CAP : Int := 0x58
def KEYCODE_J_CAP : Int := 0x4A
def KEYCODE_K_CAP : Int := 0x4B

/-! ## Messages and parameters -/

/-- The message type `geometry_msgs::Vector3`: three `double` fields. -/
structure Vector3 where
  x : ℚ
  y : ℚ
  z : ℚ
  deriving DecidableEq

/-- The message type `geometry_msgs::Twist`: a linear and an angular `Vector3`. -/
structure Twist where
  linear : Vector3
  angular : Vector3
  deriving DecidableEq

/-- A default-constructed `geometry_msgs::Twist` (all six fields are zero). -/
def Twist.zero : Twist := ⟨⟨0, 0, 0⟩, ⟨0, 0, 0⟩⟩

/-- The four private velocity members of `SmartCarKeyboardTeleopNode`. -/
structure Config where
  walk_vel_ : ℚ
  run_vel_ : ℚ
  yaw_rate_ : ℚ
  yaw_rate_run_ : ℚ
  deriving DecidableEq

/-- The parameter defaults given to `n_private.param` in the constructor. -/
def Config.default : Config := ⟨0.2, 0.5, 0.5, 1.0⟩

/-- Integer promotion of a `char` holding byte `b` (signed `char`). -/
def charToInt (b : Nat) : Int :=
  if b % 256 < 128 then ((b % 256 : Nat) : Int) else ((b % 256 : Nat) : Int) - 256

/-- The three assignments every branch of the `switch` performs on `cmdvel_`:
`linear.x`, `linear.y` and `angular.z`; the other three fields are not written. -/
def assign3 (cmdvel_ : Twist) (lx ly az : ℚ) : Twist :=
  { linear := { cmdvel_.linear with x := lx, y := ly }
    angular := { cmdvel_.angular with z := az } }

/-- The `switch(c)` of `keyboardLoop` (every case ends in `break`, the case
constants are distinct), as the update it performs on `cmdvel_`. -/
def switchKey (cfg : Config) (c : Int) (cmdvel_ : Twist) : Twist :=
  if c = KEYCODE_W then assign3 cmdvel_ cfg.walk_vel_ 0 0
  else if c = KEYCODE_S then assign3 cmdvel_ 0 0 0
  else if c = KEYCODE_A then assign3 cmdvel_ 0 cfg.walk_vel_ 0
  else if c = KEYCODE_D then assign3 cmdvel_ 0 (-cfg.walk_vel_) 0
  else if c = KEYCODE_X then assign3 cmdvel_ (-cfg.walk_vel_) 0 0
  else if c = KEYCODE_W_CAP then assign3 cmdvel_ cfg.run_vel_ 0 0
  else if c = KEYCODE_S_CAP then assign3 cmdvel_ 0 0 0
  else if c = KEYCODE_A_CAP then assign3 cmdvel_ 0 cfg.run_vel_ 0
  else if c = KEYCODE_D_CAP then assign3 cmdvel_ 0 (-cfg.run_vel_) 0
  else if c = KEYCODE_X_CAP then assign3 cmdvel_ (-cfg.run_vel_) 0 0
  else if c = KEYCODE_J then assign3 cmdvel_ 0 0 cfg.walk_vel_
  else if c = KEYCODE_K then assign3 cmdvel_ 0 0 (-cfg.walk_vel_)
  else if c = KEYCODE_J_CAP then assign3 cmdvel_ 0 0 cfg.run_vel_
  else if c = KEYCODE_K_CAP then assign3 cmdvel_ 0 0 (-cfg.run_vel_)
  else assign3 cmdvel_ 0 0 0

/-- The command part of a `Twist`: `(linear.x, linear.y, angular.z)`. -/
def Twist.cmd (t : Twist) : ℚ × ℚ × ℚ := (t.linear.x, t.linear.y, t.angular.z)

/-- The fields of a `Twist` the program never assigns:
`(linear.z, angular.x, angular.y)`. -/
def Twist.rest (t : Twist) : ℚ × ℚ × ℚ := (t.linear.z, t.angular.x, t.angular.y)

/-- The fourteen letters that have a `case` of their own:
`w a s d x j k` and their uppercase forms. -/
def recognizedKeys : List Nat :=
  [0x77, 0x61, 0x73, 0x64, 0x78, 0x6A, 0x6B, 0x57, 0x41, 0x53, 0x44, 0x58, 0x4A, 0x4B]

/-- The twelve motion keys: the recognized letters other than `s` and `S`. -/
def motionKeys : List Nat :=
  [0x77, 0x61, 0x64, 0x78, 0x6A, 0x6B, 0x57, 0x41, 0x44, 0x58, 0x4A, 0x4B]

/-- Number of non-zero fields among the six fields of a `Twist`. -/
def Twist.nonZeroFields (t : Twist) : Nat :=
  ([t.linear.x, t.linear.y, t.linear.z, t.angular.x, t.angular.y, t.angular.z].filter
    (fun v => decide (v ≠ 0))).length

/-! ## `double` arithmetic of the rate check -/

/-- Rounding of a rational to the nearest integer, ties to the even one. -/
def roundHalfEven (y : ℚ) : ℤ :=
  if y - ⌊y⌋ < 1 / 2 then ⌊y⌋
  else if 1 / 2 < y - ⌊y⌋ then ⌊y⌋ + 1
  else if ⌊y⌋ % 2 = 0 then ⌊y⌋ else ⌊y⌋ + 1

/-- The spacing of the binary64 numbers around `x`: `2 ^ (e - 52)` where `e` is
the exponent of `x`, not below the least normal exponent `-1022`. -/
def ulp (x : ℚ) : ℚ := (2 : ℚ) ^ (max (Int.log 2 |x|) (-1022) - 52)

/-- Rounding of a rational to binary64 (53 significant bits, round to nearest,
ties to even, gradual underflow). Overflow to infinity is not represented: a
value beyond the largest `double` rounds to a finite number of the same sign,
which compares with `0.1` as the infinity does. -/
def roundDouble (x : ℚ) : ℚ := (roundHalfEven (x / ulp x) : ℚ) * ulp x

/-- The `double` subtraction `a - b`. -/
def doubleSub (a b : ℚ) : ℚ := roundDouble (a - b)

/-- The literal `0.1` of type `double`: the binary64 number nearest to 1/10,
`0x1.999999999999ap-4`. -/
def double_0_1 : ℚ := roundDouble (1 / 10)

/-- The `struct termios` of the source's comment: four flag words (`tcflag_t`,
32 bits) and the control characters `c_cc[NCCS]`. -/
structure Termios where
  c_iflag : Nat
  c_oflag : Nat
  c_cflag : Nat
  c_lflag : Nat
  c_cc : List Nat
  deriving DecidableEq

/-- The constants of `<termios.h>` the program uses (`ICANON`, `ECHO`, `VEOL`,
`VEOF`, `NCCS`) and the two indices of the non-canonical read parameters
(`VMIN`, `VTIME`). The header is not part of the repository, so they are a
parameter of the model. -/
structure TermiosH where
  ICANON : Nat
  ECHO : Nat
  VEOL : Nat
  VEOF : Nat
  VMIN : Nat
  VTIME : Nat
  NCCS : Nat
  deriving DecidableEq

/-- The values of these constants on Linux (`asm-generic/termbits.h`). -/
def TermiosH.linux : TermiosH :=
  { ICANON := 0o2, ECHO := 0o10, VEOL := 11, VEOF := 4, VMIN := 6, VTIME := 5, NCCS := 32 }

/-- A zero-initialised `struct termios` (the globals `cooked` and `raw` have
static storage). -/
def Termios.zero (h : TermiosH) : Termios :=
  { c_iflag := 0, c_oflag := 0, c_cflag := 0, c_lflag := 0, c_cc := List.replicate h.NCCS 0 }

/-- The statement `flags &= ~mask` on a 32-bit `tcflag_t`. -/
def andNot32 (flags mask : Nat) : Nat := flags &&& (2 ^ 32 - 1 - mask % 2 ^ 32)

/-- The construction of `raw` from `cooked` in `keyboardLoop`:
`memcpy(&raw, &cooked, ...)`, `raw.c_lflag &=~ (ICANON | ECHO)`,
`raw.c_cc[VEOL] = 1`, `raw.c_cc[VEOF] = 2`. -/
def makeRaw (h : TermiosH) (cooked : Termios) : Termios :=
  let raw := cooked
  let raw := { raw with c_lflag := andNot32 raw.c_lflag (h.ICANON ||| h.ECHO) }
  let raw := { raw with c_cc := raw.c_cc.set h.VEOL 1 }
  let raw := { raw with c_cc := raw.c_cc.set h.VEOF 2 }
  raw

/-! ## Effects, environment and state -/

/-- What the program does to the outside world, in program order. -/
inductive Effect where
  | tcgetattr (ok : Bool)
  | tcsetattr (t : Termios) (ok : Bool)
  | puts (s : String)
  | poll (num : Int)
  | read (ret : Int)
  | perror (s : String)
  | publish (msg : Twist)
  | stopRobot
  deriving DecidableEq

/-- What the system answers in one iteration of the `for(;;)` loop: the value
returned by `poll`, the value returned by `read` and the byte `read` delivers
(the last two are consulted only when the calls are made). -/
structure IterEnv where
  num : Int
  ret : Int
  byte : Nat

/-- The environment of one run: whether `tcgetattr`, the `tcsetattr` of
`keyboardLoop` and the `tcsetattr` of `main` succeed, the indeterminate initial
content of `char c`, the successive readings of `omp_get_wtime()`, and the
answers for the loop iterations made before the thread observes the
interruption at `interruption_point()`. -/
structure Env where
  tcgetattr_ok : Bool
  tcsetattr_raw_ok : Bool
  tcsetattr_cooked_ok : Bool
  c0 : Nat
  clock : Nat → ℚ
  iters : List IterEnv

/-- The program state: the terminal's configuration on `kfd`, the globals
`cooked` and `raw`, the member `cmdvel_`, the locals `c` and `last_ctrl_time`
of `keyboardLoop`, the number of clock readings taken so far, and the effect
trace. -/
structure State where
  term : Termios
  cooked : Termios
  raw : Termios
  cmdvel_ : Twist
  c : Nat
  last_ctrl_time : ℚ
  ticks : Nat
  trace : List Effect

/-- Append one effect to the trace. -/
def State.emit (s : State) (e : Effect) : State := { s with trace := s.trace ++ [e] }

/-- The call `tcgetattr(kfd, &cooked)`: on success `cooked` receives the terminal's
configuration, on failure it is left as it was. The result is not inspected. -/
def tcgetattrCooked (ok : Bool) (s : State) : State :=
  (if ok then { s with cooked := s.term } else s).emit (Effect.tcgetattr ok)

/-- The call `tcsetattr(kfd, TCSANOW, &t)`: on success the terminal takes
configuration `t`, on failure it keeps its own. The result is not inspected. -/
def tcsetattrNow (ok : Bool) (t : Termios) (s : State) : State :=
  (if ok then { s with term := t } else s).emit (Effect.tcsetattr t ok)

/-- The control path one loop iteration takes. -/
inductive Path where
  | pollError
  | readError
  | timedOut
  | rateLimited
  | published
  deriving DecidableEq

/-- The tail of the loop body, from the rate check to `pub_.publish(cmdvel_)`. -/
def gateAndPublish (cfg : Config) (clock : Nat → ℚ) (s : State) : Path × State :=
  let now := clock s.ticks
  let s := { s with ticks := s.ticks + 1 }
  if doubleSub now s.last_ctrl_time < double_0_1 then (Path.rateLimited, s)
  else
    let s := { s with cmdvel_ := switchKey cfg (charToInt s.c) s.cmdvel_ }
    let s := { s with last_ctrl_time := clock s.ticks, ticks := s.ticks + 1 }
    (Path.published, s.emit (Effect.publish s.cmdvel_))

/-- One iteration of the `for(;;)` loop after `interruption_point()`. -/
def loopBody (cfg : Config) (clock : Nat → ℚ) (e : IterEnv) (s : State) : Path × State :=
  let s := s.emit (Effect.poll e.num)
  if e.num < 0 then (Path.pollError, s.emit (Effect.perror "poll():"))
  else if e.num > 0 then
    let s := s.emit (Effect.read e.ret)
    if e.ret < 0 then (Path.readError, s.emit (Effect.perror "read():"))
    else gateAndPublish cfg clock { s with c := if e.ret > 0 then e.byte % 256 else s.c }
  else (Path.timedOut, s)

/-- Does the loop go on after an iteration that took this path
(`continue` or the end of the body), or did `keyboardLoop` execute `return`? -/
def Path.continues : Path → Bool
  | Path.pollError => false
  | Path.readError => false
  | _ => true

/-- The `for(;;)` loop over the iterations the environment answers; when they
are used up the thread is at `interruption_point()` with the interruption
pending and ends there. -/
def runLoop (cfg : Config) (clock : Nat → ℚ) : List IterEnv → State → State
  | [], s => s
  | e :: es, s =>
    let r := loopBody cfg clock e s
    if r.1.continues then runLoop cfg clock es r.2 else r.2

/-- The part of `keyboardLoop` before the loop: locals, terminal set-up, banner. -/
def setup (h : TermiosH) (env : Env) (s : State) : State :=
  let s := { s with c := env.c0 % 256 }
  let s := { s with last_ctrl_time := env.clock s.ticks, ticks := s.ticks + 1 }
  let s := tcgetattrCooked env.tcgetattr_ok s
  let s := { s with raw := makeRaw h s.cooked }
  let s := tcsetattrNow env.tcsetattr_raw_ok s.raw s
  let s := s.emit (Effect.puts "Reading from keyboard")
  let s := s.emit (Effect.puts "Use WASD keys to control the robot")
  s.emit (Effect.puts "Press Shift to move faster")

/-- The method `SmartCarKeyboardTeleopNode::keyboardLoop`. -/
def keyboardLoop (h : TermiosH) (cfg : Config) (env : Env) (s : State) : State :=
  runLoop cfg env.clock env.iters (setup h env s)

/-- The method `SmartCarKeyboardTeleopNode::stopRobot`. -/
def stopRobot (s : State) : State :=
  (s.emit Effect.stopRobot).emit (Effect.publish Twist.zero)

/-- The state when `main` starts the thread: terminal in configuration `term0`,
zeroed globals, default-constructed `cmdvel_`, empty trace. -/
def initState (h : TermiosH) (term0 : Termios) : State :=
  { term := term0, cooked := Termios.zero h, raw := Termios.zero h, cmdvel_ := Twist.zero,
    c := 0, last_ctrl_time := 0, ticks := 0, trace := [] }

/-- The part of `main` after `t.join()` has returned:
`tbk.stopRobot(); tcsetattr(kfd, TCSANOW, &cooked); return(0);`. -/
def shutdown (env : Env) (s : State) : Int × State :=
  let s := stopRobot s
  let s := tcsetattrNow env.tcsetattr_cooked_ok s.cooked s
  (0, s)

/-- The function `main` for a run in which `ros::spin()` returns: the thread
runs `keyboardLoop` until `t.join()` returns, then the shutdown sequence. -/
def main (h : TermiosH) (cfg : Config) (env : Env) (term0 : Termios) : Int × State :=
  shutdown env (keyboardLoop h cfg env (initState h term0))

/-- The messages handed to `pub_.publish`, in order. -/
def sink (tr : List Effect) : List Twist :=
  tr.filterMap (fun e => match e with
    | Effect.publish m => some m
    | _ => none)

/-- The values `last_ctrl_time` takes at the successive publishes of the loop. -/
def gateStamps (cfg : Config) (clock : Nat → ℚ) : List IterEnv → State → List ℚ
  | [], _ => []
  | e :: es, s =>
    let r := loopBody cfg clock e s
    if r.1 = Path.published then r.2.last_ctrl_time :: gateStamps cfg clock es r.2
    else if r.1.continues then gateStamps cfg clock es r.2
    else []

/-- Effects of the poll loop proper: `poll`, `read`, `perror`, `publish`. -/
def Effect.isLoopEffect : Effect → Bool
  | Effect.poll _ => true
  | Effect.read _ => true
  | Effect.perror _ => true
  | Effect.publish _ => true
  | _ => false

/-- An occurrence of `a` comes before an occurrence of `b` in the trace. -/
def Precedes (a b : Effect) (tr : List Effect) : Prop :=
  ∃ i j : Nat, i < j ∧ tr[i]? = some a ∧ tr[j]? = some b

/-- The state with the terminal, the globals and the trace blanked: what is left
is what the loop body reads (`cmdvel_`, `c`, `last_ctrl_time`, the clock position). -/
def State.norm (s : State) : State :=
  { s with trace := [], term := ⟨0, 0, 0, 0, []⟩, cooked := ⟨0, 0, 0, 0, []⟩,
           raw := ⟨0, 0, 0, 0, []⟩ }

/-- State `r` with the terminal and the globals of `s0` and its trace appended to
the trace of `s0`. -/
def State.restore (s0 r : State) : State :=
  { r with trace := s0.trace ++ r.trace, term := s0.term, cooked := s0.cooked, raw := s0.raw }

/-! ## Sample inputs -/

/-- A terminal in the usual cooked mode of a Linux console: `ICANON`, `ECHO`
and `ISIG` set among the local flags, the standard control characters
(`VEOF = ^D` at index 4, `VMIN = 1` at index 6, `VEOL` unset at index 11). -/
def sampleTerm : Termios :=
  { c_iflag := 0x500, c_oflag := 0x5, c_cflag := 0xBF, c_lflag := 0x8A3B,
    c_cc := [3, 28, 127, 21, 4, 0, 1, 0, 17, 19, 26, 0, 18, 15, 23, 22,
             0, 0, 0, 0, 0, 0, 0, 0, 0, 0, 0, 0, 0, 0, 0, 0] }

/-- A clock that advances by one second per reading. -/
def secondsClock : Nat → ℚ := fun n => (n : ℚ)

/-- A clock that advances by 60 ms per reading. -/
def fastClock : Nat → ℚ := fun n => (n : ℚ) * 0.06

/-- A run on a terminal: the key `w` arrives one second after start, then one
poll times out, then the interruption is observed. -/
def sampleEnv : Env :=
  { tcgetattr_ok := true, tcsetattr_raw_ok := true, tcsetattr_cooked_ok := true,
    c0 := 0, clock := secondsClock, iters := [⟨1, 1, 0x77⟩, ⟨0, 0, 0⟩] }

/-- A run whose standard input is not a terminal: `tcgetattr` and `tcsetattr`
fail, yet `poll` and `read` deliver the key `w`. -/
def failEnv : Env :=
  { tcgetattr_ok := false, tcsetattr_raw_ok := false, tcsetattr_cooked_ok := false,
    c0 := 0, clock := secondsClock, iters := [⟨1, 1, 0x77⟩] }

/-- Six iterations that each read the key `w`. -/
def sixKeys : List IterEnv :=
  [⟨1, 1, 0x77⟩, ⟨1, 1, 0x77⟩, ⟨1, 1, 0x77⟩, ⟨1, 1, 0x77⟩, ⟨1, 1, 0x77⟩, ⟨1, 1, 0x77⟩]

/-- A run on a terminal whose first `poll` fails (returns `-1`). -/
def pollFailEnv : Env :=
  { tcgetattr_ok := true, tcsetattr_raw_ok := true, tcsetattr_cooked_ok := true,
    c0 := 0, clock := secondsClock, iters := [⟨-1, 0, 0⟩, ⟨1, 1, 0x77⟩] }

/-- A config whose yaw rate differs from its run speed. -/
def slowYawConfig : Config := ⟨0.2, 0.5, 0.3, 1.0⟩

/-- Four polls that time out, one after the other (one second without input). -/
def fourTimeouts : List IterEnv := [⟨0, 0, 0⟩, ⟨0, 0, 0⟩, ⟨0, 0, 0⟩, ⟨0, 0, 0⟩]

/-- The binary64 number `0x1.bab8cbabb6581p-58` (about `6.0e-18`). -/
def tinyReading : ℚ := 7788445287802241 / 2 ^ 110

/-- The binary64 number `0x1.999999999999ap-4`, the `double` nearest to 1/10. -/
def tenthReading : ℚ := 7205759403792794 / 2 ^ 56

/-- A non-decreasing clock with the binary64 readings `-1`, `-0.5`,
`0x1.bab8cbabb6581p-58`, and then `0x1.999999999999ap-4` for ever. -/
def boundaryClock : Nat → ℚ := fun n =>
  if n = 0 then -1 else if n = 1 then -1 / 2 else if n = 2 then tinyReading else tenthReading

/-- A run on a terminal under `boundaryClock` in which the key `w` is read twice. -/
def boundaryEnv : Env :=
  { tcgetattr_ok := true, tcsetattr_raw_ok := true, tcsetattr_cooked_ok := true,
    c0 := 0, clock := boundaryClock, iters := [⟨1, 1, 0x77⟩, ⟨1, 1, 0x77⟩] }

/-! ## The key-to-command mapping -/

theorem assign3_cmd (t : Twist) (lx ly az : ℚ) : (assign3 t lx ly az).cmd = (lx, ly, az) := rfl

theorem assign3_rest (t : Twist) (lx ly az : ℚ) : (assign3 t lx ly az).rest = t.rest := rfl

/-- No branch of the `switch` writes `linear.z`, `angular.x` or `angular.y`. -/
theorem switchKey_rest (cfg : Config) (c : Int) (t : Twist) :
    (switchKey cfg c t).rest = t.rest := by
  simp only [switchKey, apply_ite Twist.rest, assign3_rest, ite_self]

/-- A key code outside the fourteen `case` constants reaches `default:`. -/
theorem switchKey_default (cfg : Config) (c : Int) (t : Twist)
    (h : ∀ k ∈ recognizedKeys, c ≠ (k : Int)) : switchKey cfg c t = assign3 t 0 0 0 := by
  simp only [recognizedKeys, List.mem_cons, List.mem_singleton, forall_eq_or_imp, forall_eq,
    List.not_mem_nil, IsEmpty.forall_iff, implies_true, and_true] at h
  obtain ⟨h1, h2, h3, h4, h5, h6, h7, h8, h9, h10, h11, h12, h13, h14⟩ := h
  simp only [Nat.cast_ofNat] at h1 h2 h3 h4 h5 h6 h7 h8 h9 h10 h11 h12 h13 h14
  simp [switchKey, KEYCODE_W, KEYCODE_A, KEYCODE_S, KEYCODE_D, KEYCODE_X, KEYCODE_J, KEYCODE_K,
    KEYCODE_W_CAP, KEYCODE_A_CAP, KEYCODE_S_CAP, KEYCODE_D_CAP, KEYCODE_X_CAP, KEYCODE_J_CAP,
    KEYCODE_K_CAP, h1, h2, h3, h4, h5, h6, h7, h8, h9, h10, h11, h12, h13, h14]

/-- Promotion of a byte is injective on bytes and never yields a value of
`128` or more: a byte that is not a given ASCII code does not promote to it. -/
theorem charToInt_ne (b k : Nat) (hb : b < 256) (hk : k < 128) (h : b ≠ k) :
    charToInt b ≠ (k : Int) := by
  unfold charToInt
  rw [Nat.mod_eq_of_lt hb]
  split_ifs <;> omega

theorem charToInt_ascii (k : Nat) (hk : k < 128) : charToInt k = (k : Int) := by
  unfold charToInt
  rw [Nat.mod_eq_of_lt (by omega : k < 256)]
  simp [hk]

/-- An unrecognized byte is mapped by the `switch` like `default:`. -/
theorem switchKey_unrecognized (cfg : Config) (b : Nat) (t : Twist) (hb : b < 256)
    (h : b ∉ recognizedKeys) : switchKey cfg (charToInt b) t = assign3 t 0 0 0 := by
  apply switchKey_default
  intro k hk
  apply charToInt_ne b k hb
  · revert k; decide
  · rintro rfl; exact h hk

/-- C1: every 8-bit key code that is not one of the fourteen recognized letters
is mapped, for every config and every previous command, to the all-zero command
(`linear.x = 0`, `linear.y = 0`, `angular.z = 0`, the other fields untouched);
in particular `0x00`, `q` (`0x71`) and the digit keys `0x31..0x39`. -/
theorem C1_unrecognized_key_maps_to_zero (cfg : Config) (prev : Twist) (b : Nat)
    (hb : b < 256) (h : b ∉ recognizedKeys) :
    ((switchKey cfg (charToInt b) prev).cmd = (0, 0, 0)
      ∧ (switchKey cfg (charToInt b) prev).rest = prev.rest)
    ∧ (switchKey cfg (charToInt 0x00) prev).cmd = (0, 0, 0)
    ∧ (switchKey cfg (charToInt 0x71) prev).cmd = (0, 0, 0)
    ∧ ∀ d : Nat, 0x31 ≤ d → d ≤ 0x39 → (switchKey cfg (charToInt d) prev).cmd = (0, 0, 0) := by
  refine ⟨⟨?_, switchKey_rest _ _ _⟩, ?_, ?_, ?_⟩
  · rw [switchKey_unrecognized cfg b prev hb h, assign3_cmd]
  · rw [switchKey_unrecognized cfg 0x00 prev (by decide) (by decide), assign3_cmd]
  · rw [switchKey_unrecognized cfg 0x71 prev (by decide) (by decide), assign3_cmd]
  · intro d h1 h2
    rw [switchKey_unrecognized cfg d prev (by omega) ?_, assign3_cmd]
    simp only [recognizedKeys, List.mem_cons, List.mem_singleton, List.not_mem_nil, or_false]
    clear h hb
    omega

/-- C1 at the byte `0xFF` (promoted to `-1`), default config, zero previous command. -/
theorem C1_unrecognized_key_maps_to_zero_witness :
    (255 < 256 ∧ 255 ∉ recognizedKeys)
    ∧ (switchKey Config.default (charToInt 255) Twist.zero).cmd = (0, 0, 0) :=
  ⟨⟨by decide, by decide⟩,
    (C1_unrecognized_key_maps_to_zero Config.default Twist.zero 255 (by decide) (by decide)).1.1⟩

/-- The fourteen `case` branches, key by key. -/
theorem switchKey_table (cfg : Config) (t : Twist) :
    (switchKey cfg (charToInt 0x77) t = assign3 t cfg.walk_vel_ 0 0
      ∧ switchKey cfg (charToInt 0x73) t = assign3 t 0 0 0
      ∧ switchKey cfg (charToInt 0x61) t = assign3 t 0 cfg.walk_vel_ 0
      ∧ switchKey cfg (charToInt 0x64) t = assign3 t 0 (-cfg.walk_vel_) 0
      ∧ switchKey cfg (charToInt 0x78) t = assign3 t (-cfg.walk_vel_) 0 0
      ∧ switchKey cfg (charToInt 0x6A) t = assign3 t 0 0 cfg.walk_vel_
      ∧ switchKey cfg (charToInt 0x6B) t = assign3 t 0 0 (-cfg.walk_vel_))
    ∧ (switchKey cfg (charToInt 0x57) t = assign3 t cfg.run_vel_ 0 0
      ∧ switchKey cfg (charToInt 0x53) t = assign3 t 0 0 0
      ∧ switchKey cfg (charToInt 0x41) t = assign3 t 0 cfg.run_vel_ 0
      ∧ switchKey cfg (charToInt 0x44) t = assign3 t 0 (-cfg.run_vel_) 0
      ∧ switchKey cfg (charToInt 0x58) t = assign3 t (-cfg.run_vel_) 0 0
      ∧ switchKey cfg (charToInt 0x4A) t = assign3 t 0 0 cfg.run_vel_
      ∧ switchKey cfg (charToInt 0x4B) t = assign3 t 0 0 (-cfg.run_vel_)) := by
  refine ⟨⟨?_, ?_, ?_, ?_, ?_, ?_, ?_⟩, ?_, ?_, ?_, ?_, ?_, ?_, ?_⟩ <;>
    simp [switchKey, charToInt, KEYCODE_W, KEYCODE_A, KEYCODE_S, KEYCODE_D, KEYCODE_X,
      KEYCODE_J, KEYCODE_K, KEYCODE_W_CAP, KEYCODE_A_CAP, KEYCODE_S_CAP, KEYCODE_D_CAP,
      KEYCODE_X_CAP, KEYCODE_J_CAP, KEYCODE_K_CAP]

/-- C2: for every config (and every previous command) the mapping sends `w`
(`0x77`) to `{walk_vel, 0, 0}`, `A` (`0x41`) to `{0, run_vel, 0}`, `k` (`0x6B`) to
`{0, 0, -walk_vel}` and `q` (`0x71`) to `{0, 0, 0}`; with `walk_vel = 0.2` and
`run_vel = 0.5` (whatever the yaw rates) these are `{0.2, 0, 0}`, `{0, 0.5, 0}`,
`{0, 0, -0.2}` and `{0, 0, 0}`. -/
theorem C2_scenario_keys (cfg : Config) (prev : Twist) (yaw yaw_run : ℚ) :
    ((switchKey cfg (charToInt 0x77) prev).cmd = (cfg.walk_vel_, 0, 0)
      ∧ (switchKey cfg (charToInt 0x41) prev).cmd = (0, cfg.run_vel_, 0)
      ∧ (switchKey cfg (charToInt 0x6B) prev).cmd = (0, 0, -cfg.walk_vel_)
      ∧ (switchKey cfg (charToInt 0x71) prev).cmd = (0, 0, 0))
    ∧ ((switchKey ⟨0.2, 0.5, yaw, yaw_run⟩ (charToInt 0x77) prev).cmd = (0.2, 0, 0)
      ∧ (switchKey ⟨0.2, 0.5, yaw, yaw_run⟩ (charToInt 0x41) prev).cmd = (0, 0.5, 0)
      ∧ (switchKey ⟨0.2, 0.5, yaw, yaw_run⟩ (charToInt 0x6B) prev).cmd = (0, 0, -0.2)
      ∧ (switchKey ⟨0.2, 0.5, yaw, yaw_run⟩ (charToInt 0x71) prev).cmd = (0, 0, 0)) := by
  have hq : ∀ c : Config, (switchKey c (charToInt 0x71) prev).cmd = (0, 0, 0) := fun c => by
    rw [switchKey_unrecognized c 0x71 prev (by decide) (by decide), assign3_cmd]
  refine ⟨⟨?_, ?_, ?_, hq _⟩, ?_, ?_, ?_, hq _⟩
  · rw [(switchKey_table cfg prev).1.1, assign3_cmd]
  · rw [(switchKey_table cfg prev).2.2.2.1, assign3_cmd]
  · rw [(switchKey_table cfg prev).1.2.2.2.2.2.2, assign3_cmd]
  · rw [(switchKey_table _ prev).1.1, assign3_cmd]
  · rw [(switchKey_table _ prev).2.2.2.1, assign3_cmd]
  · rw [(switchKey_table _ prev).1.2.2.2.2.2.2, assign3_cmd]

/-- The count of non-zero fields after the three assignments, when the fields
that are never assigned are zero. -/
theorem nonZeroFields_assign3 (t : Twist) (lx ly az : ℚ) (ht : t.rest = (0, 0, 0)) :
    (assign3 t lx ly az).nonZeroFields
      = (if lx ≠ 0 then 1 else 0) + (if ly ≠ 0 then 1 else 0) + (if az ≠ 0 then 1 else 0) := by
  obtain ⟨⟨x, y, z⟩, ⟨ax, ay, az0⟩⟩ := t
  simp only [Twist.rest, Prod.mk.injEq] at ht
  obtain ⟨rfl, rfl, rfl⟩ := ht
  by_cases h1 : lx = 0 <;> by_cases h2 : ly = 0 <;> by_cases h3 : az = 0 <;>
    simp [Twist.nonZeroFields, assign3, h1, h2, h3]

/-- C3: for every 8-bit key code and every config with `walk_vel > 0` and
`run_vel > 0` (the fields the program never writes being zero, as they are
throughout a run), the mapped command has exactly one non-zero field when the
key is one of the twelve motion keys and none otherwise; hence for no key are a
linear field and `angular.z` both non-zero. -/
theorem C3_at_most_one_nonzero_field (cfg : Config) (prev : Twist) (b : Nat)
    (hw : 0 < cfg.walk_vel_) (hr : 0 < cfg.run_vel_) (hprev : prev.rest = (0, 0, 0))
    (hb : b < 256) :
    (b ∈ motionKeys → (switchKey cfg (charToInt b) prev).nonZeroFields = 1)
    ∧ (b ∉ motionKeys → (switchKey cfg (charToInt b) prev).nonZeroFields = 0)
    ∧ ¬ (((switchKey cfg (charToInt b) prev).linear.x ≠ 0
          ∨ (switchKey cfg (charToInt b) prev).linear.y ≠ 0
          ∨ (switchKey cfg (charToInt b) prev).linear.z ≠ 0)
        ∧ (switchKey cfg (charToInt b) prev).angular.z ≠ 0) := by
  have hw' : cfg.walk_vel_ ≠ 0 := ne_of_gt hw
  have hr' : cfg.run_vel_ ≠ 0 := ne_of_gt hr
  have hz : prev.linear.z = 0 := by
    have := congrArg Prod.fst hprev
    exact this
  obtain ⟨⟨t1, t2, t3, t4, t5, t6, t7⟩, t8, t9, t10, t11, t12, t13, t14⟩ :=
    switchKey_table cfg prev
  by_cases hrec : b ∈ recognizedKeys
  · simp only [recognizedKeys, List.mem_cons, List.mem_singleton, List.not_mem_nil,
      or_false] at hrec
    rcases hrec with rfl | rfl | rfl | rfl | rfl | rfl | rfl | rfl | rfl | rfl | rfl | rfl
      | rfl | rfl
    all_goals
      simp only [t1, t2, t3, t4, t5, t6, t7, t8, t9, t10, t11, t12, t13, t14,
        nonZeroFields_assign3 _ _ _ _ hprev]
      simp [motionKeys, assign3, hw', hr', hz]
  · have hm : b ∉ motionKeys := by
      intro hm
      apply hrec
      revert hm
      simp only [recognizedKeys, motionKeys, List.mem_cons, List.mem_singleton,
        List.not_mem_nil, or_false]
      omega
    rw [switchKey_unrecognized cfg b prev hb hrec, nonZeroFields_assign3 _ _ _ _ hprev]
    simp [hm, assign3, hz]

/-- C3 at the key `j` (`0x6A`) with the default config: one non-zero field. -/
theorem C3_at_most_one_nonzero_field_witness :
    (0 < Config.default.walk_vel_ ∧ 0 < Config.default.run_vel_
      ∧ Twist.zero.rest = (0, 0, 0) ∧ 0x6A < 256 ∧ 0x6A ∈ motionKeys)
    ∧ (switchKey Config.default (charToInt 0x6A) Twist.zero).nonZeroFields = 1 :=
  have hw : 0 < Config.default.walk_vel_ := by norm_num [Config.default]
  have hr : 0 < Config.default.run_vel_ := by norm_num [Config.default]
  ⟨⟨hw, hr, rfl, by decide, by decide⟩,
    (C3_at_most_one_nonzero_field Config.default Twist.zero 0x6A hw hr rfl (by decide)).1
      (by decide)⟩

/-! ## Rounding to `double` -/

/-- Rounding to an integer does not pass an integer above. -/
theorem roundHalfEven_le_of_le (y : ℚ) (n : ℤ) (h : y ≤ n) : roundHalfEven y ≤ n := by
  have hf : ⌊y⌋ ≤ n := by
    have := Int.floor_le y
    exact_mod_cast (this.trans h)
  unfold roundHalfEven
  rcases hf.lt_or_eq with hlt | heq
  · split_ifs <;> omega
  · have hy : y = (⌊y⌋ : ℚ) := le_antisymm (by rw [heq]; exact h) (Int.floor_le y)
    have : y - ⌊y⌋ < 1 / 2 := by rw [← hy]; norm_num
    rw [if_pos this]
    exact hf

/-- Rounding to an integer does not pass an integer below. -/
theorem le_roundHalfEven_of_le (y : ℚ) (n : ℤ) (h : (n : ℚ) ≤ y) : n ≤ roundHalfEven y := by
  have hf : n ≤ ⌊y⌋ := Int.le_floor.mpr h
  unfold roundHalfEven
  split_ifs <;> omega

/-- Below an even integer `m`, the numbers that round below `m` are those below
`m - 1/2`: the tie `m - 1/2` goes to `m`. -/
theorem roundHalfEven_lt_even_iff (y : ℚ) (m : ℤ) (hm : m % 2 = 0) :
    roundHalfEven y < m ↔ y < (m : ℚ) - 1 / 2 := by
  have h1 := Int.floor_le y
  have h2 := Int.lt_floor_add_one y
  constructor
  · intro hlt
    by_contra hge
    push_neg at hge
    apply absurd hlt
    push_neg
    by_cases hym : (m : ℚ) ≤ y
    · exact le_roundHalfEven_of_le y m hym
    · push_neg at hym
      have hfl : ⌊y⌋ = m - 1 := by
        rw [Int.floor_eq_iff]
        constructor
        · push_cast; linarith
        · push_cast; linarith
      unfold roundHalfEven
      have hr : ¬ (y - ⌊y⌋ < 1 / 2) := by
        rw [hfl]; push_cast; linarith
      rw [if_neg hr]
      split_ifs
      · omega
      · omega
      · omega
  · intro hlt
    have hf : ⌊y⌋ ≤ m - 1 := by
      have : ⌊y⌋ < m := by
        rw [Int.floor_lt]; linarith
      omega
    unfold roundHalfEven
    rcases hf.lt_or_eq with hl | he
    · split_ifs <;> omega
    · have : y - ⌊y⌋ < 1 / 2 := by rw [he]; push_cast; linarith
      rw [if_pos this]
      omega

theorem ulp_pos (x : ℚ) : 0 < ulp x := by
  unfold ulp
  positivity

/-- The exponent of a binade. -/
theorem log_of_binade (x : ℚ) (e : ℤ) (h1 : (2 : ℚ) ^ e ≤ x) (h2 : x < (2 : ℚ) ^ (e + 1)) :
    Int.log 2 x = e := by
  have hx : 0 < x := lt_of_lt_of_le (by positivity) h1
  have ha : e ≤ Int.log 2 x := by
    rw [← Int.zpow_le_iff_le_log (by norm_num) hx]
    exact_mod_cast h1
  have hb : Int.log 2 x < e + 1 := by
    rw [← Int.lt_zpow_iff_log_lt (by norm_num) hx]
    exact_mod_cast h2
  omega

theorem ulp_of_binade (x : ℚ) (e : ℤ) (he : -1022 ≤ e) (h1 : (2 : ℚ) ^ e ≤ x)
    (h2 : x < (2 : ℚ) ^ (e + 1)) : ulp x = (2 : ℚ) ^ (e - 52) := by
  have hx : 0 < x := lt_of_lt_of_le (by positivity) h1
  unfold ulp
  rw [abs_of_pos hx, log_of_binade x e h1 h2, max_eq_left he]

/-- The literal `0.1` is `0x1.999999999999ap-4`. -/
theorem double_0_1_eq : double_0_1 = 7205759403792794 / 2 ^ 56 := by
  have hu : ulp (1 / 10) = (2 : ℚ) ^ (-4 - 52 : ℤ) :=
    ulp_of_binade (1 / 10) (-4) (by norm_num) (by norm_num) (by norm_num)
  have hr : roundHalfEven (1 / 10 / (2 : ℚ) ^ (-4 - 52 : ℤ)) = 7205759403792794 := by
    have hfl : ⌊(1 / 10 / (2 : ℚ) ^ (-4 - 52 : ℤ))⌋ = 7205759403792793 := by
      rw [Int.floor_eq_iff]
      constructor <;> norm_num
    unfold roundHalfEven
    rw [hfl]
    norm_num
  unfold double_0_1 roundDouble
  rw [hu, hr]
  norm_num

/-- A number that is not positive does not round to a positive one. -/
theorem roundDouble_nonpos (x : ℚ) (hx : x ≤ 0) : roundDouble x ≤ 0 := by
  have hu := ulp_pos x
  have hy : x / ulp x ≤ ((0 : ℤ) : ℚ) := by
    rw [Int.cast_zero]
    exact div_nonpos_of_nonpos_of_nonneg hx hu.le
  have hr : ((roundHalfEven (x / ulp x) : ℤ) : ℚ) ≤ 0 := by
    exact_mod_cast roundHalfEven_le_of_le _ 0 hy
  unfold roundDouble
  exact mul_nonpos_iff.mpr (Or.inr ⟨hr, hu.le⟩)

/-- A positive number below `2 ^ k` rounds to at most `2 ^ k`. -/
theorem roundDouble_le_two_zpow (x : ℚ) (k : ℤ) (hk : -1021 ≤ k) (h0 : 0 < x)
    (hx : x < (2 : ℚ) ^ k) : roundDouble x ≤ (2 : ℚ) ^ k := by
  have hu := ulp_pos x
  have hL1 : ((2 : ℕ) : ℚ) ^ Int.log 2 x ≤ x := Int.zpow_log_le_self (by norm_num) h0
  have hL2 : x < ((2 : ℕ) : ℚ) ^ (Int.log 2 x + 1) := Int.lt_zpow_succ_log_self (by norm_num) x
  rw [Nat.cast_ofNat] at hL1 hL2
  have hLk : Int.log 2 x < k := by
    by_contra hge
    push_neg at hge
    have : (2 : ℚ) ^ k ≤ (2 : ℚ) ^ Int.log 2 x := zpow_le_zpow_right₀ (by norm_num) hge
    linarith
  have he : max (Int.log 2 x) (-1022) + 1 ≤ k := by
    rcases le_total (Int.log 2 x) (-1022) with h | h
    · rw [max_eq_right h]; omega
    · rw [max_eq_left h]; omega
  have hxe : x < (2 : ℚ) ^ (max (Int.log 2 x) (-1022) + 1) :=
    lt_of_lt_of_le hL2 (zpow_le_zpow_right₀ (by norm_num) (by omega))
  have hsplit : (2 : ℚ) ^ (max (Int.log 2 x) (-1022) + 1) = ((2 ^ 53 : ℤ) : ℚ) * ulp x := by
    unfold ulp
    rw [abs_of_pos h0, show max (Int.log 2 x) (-1022) + 1
      = 53 + (max (Int.log 2 x) (-1022) - 52) by ring, zpow_add₀ (by norm_num)]
    norm_num
  have hy : x / ulp x ≤ ((2 ^ 53 : ℤ) : ℚ) := by
    rw [div_le_iff₀ hu]
    rw [hsplit] at hxe
    exact hxe.le
  have hr : ((roundHalfEven (x / ulp x) : ℤ) : ℚ) ≤ ((2 ^ 53 : ℤ) : ℚ) := by
    exact_mod_cast roundHalfEven_le_of_le _ _ hy
  calc roundDouble x = (roundHalfEven (x / ulp x) : ℚ) * ulp x := rfl
    _ ≤ ((2 ^ 53 : ℤ) : ℚ) * ulp x := mul_le_mul_of_nonneg_right hr hu.le
    _ = (2 : ℚ) ^ (max (Int.log 2 x) (-1022) + 1) := hsplit.symm
    _ ≤ (2 : ℚ) ^ k := zpow_le_zpow_right₀ (by norm_num) he

/-- A number that is at least `2 ^ k` rounds to at least `2 ^ k`. -/
theorem two_zpow_le_roundDouble (x : ℚ) (k : ℤ) (hk : -1022 ≤ k) (hx : (2 : ℚ) ^ k ≤ x) :
    (2 : ℚ) ^ k ≤ roundDouble x := by
  have h0 : 0 < x := lt_of_lt_of_le (by positivity) hx
  have hu := ulp_pos x
  have hL1 : ((2 : ℕ) : ℚ) ^ Int.log 2 x ≤ x := Int.zpow_log_le_self (by norm_num) h0
  rw [Nat.cast_ofNat] at hL1
  have hkL : k ≤ Int.log 2 x := by
    rw [← Int.zpow_le_iff_le_log (by norm_num) h0]
    exact_mod_cast hx
  have hmax : max (Int.log 2 x) (-1022) = Int.log 2 x := max_eq_left (by omega)
  have hsplit : (2 : ℚ) ^ (Int.log 2 x) = ((2 ^ 52 : ℤ) : ℚ) * ulp x := by
    unfold ulp
    rw [abs_of_pos h0, hmax, show Int.log 2 x = 52 + (Int.log 2 x - 52) by ring,
      zpow_add₀ (by norm_num)]
    norm_num
  have hy : ((2 ^ 52 : ℤ) : ℚ) ≤ x / ulp x := by
    rw [le_div_iff₀ hu, ← hsplit]
    exact hL1
  have hr : ((2 ^ 52 : ℤ) : ℚ) ≤ ((roundHalfEven (x / ulp x) : ℤ) : ℚ) := by
    exact_mod_cast le_roundHalfEven_of_le _ _ hy
  calc (2 : ℚ) ^ k ≤ (2 : ℚ) ^ (Int.log 2 x) := zpow_le_zpow_right₀ (by norm_num) hkL
    _ = ((2 ^ 52 : ℤ) : ℚ) * ulp x := hsplit
    _ ≤ (roundHalfEven (x / ulp x) : ℚ) * ulp x := mul_le_mul_of_nonneg_right hr hu.le

/-- The rate check in exact terms: the rounded difference is below the double
`0.1` exactly when the difference is below the midpoint between that double and
its predecessor. -/
theorem roundDouble_lt_double_0_1_iff (x : ℚ) :
    roundDouble x < double_0_1 ↔ x < 7205759403792794 / 2 ^ 56 - 1 / 2 ^ 57 := by
  rw [double_0_1_eq]
  have e4 : (2 : ℚ) ^ (-4 : ℤ) = 1 / 16 := by norm_num
  have e3 : (2 : ℚ) ^ (-3 : ℤ) = 1 / 8 := by norm_num
  have c1 : (1 / 16 : ℚ) < 7205759403792794 / 2 ^ 56 - 1 / 2 ^ 57 := by norm_num
  have c2 : (7205759403792794 / 2 ^ 56 : ℚ) < 1 / 8 := by norm_num
  have c3 : (0 : ℚ) < 1 / 2 ^ 57 := by norm_num
  rcases le_or_lt x 0 with hneg | hpos
  · have := roundDouble_nonpos x hneg
    constructor <;> intro _ <;> linarith
  rcases lt_or_le x ((2 : ℚ) ^ (-4 : ℤ)) with hlow | hge
  · have := roundDouble_le_two_zpow x (-4) (by norm_num) hpos hlow
    rw [e4] at this hlow
    constructor <;> intro _ <;> linarith
  rcases lt_or_le x ((2 : ℚ) ^ (-3 : ℤ)) with hmid | hhigh
  · have hu : ulp x = (2 : ℚ) ^ (-4 - 52 : ℤ) :=
      ulp_of_binade x (-4) (by norm_num) hge (by norm_num; norm_num at hmid; exact hmid)
    have hu' : ulp x = 1 / 2 ^ 56 := by rw [hu]; norm_num
    have hiff := roundHalfEven_lt_even_iff (x / ulp x) 7205759403792794 (by norm_num)
    unfold roundDouble
    rw [hu'] at hiff ⊢
    constructor
    · intro h
      have h1 : ((roundHalfEven (x / (1 / 2 ^ 56)) : ℤ) : ℚ) < ((7205759403792794 : ℤ) : ℚ) := by
        push_cast
        linarith
      have h2 := hiff.mp (by exact_mod_cast h1)
      rw [div_lt_iff₀ (by norm_num)] at h2
      push_cast at h2
      linarith
    · intro h
      have h2 : x / (1 / 2 ^ 56) < ((7205759403792794 : ℤ) : ℚ) - 1 / 2 := by
        rw [div_lt_iff₀ (by norm_num)]
        push_cast
        linarith
      have h1 : ((roundHalfEven (x / (1 / 2 ^ 56)) : ℤ) : ℚ) < ((7205759403792794 : ℤ) : ℚ) := by
        exact_mod_cast hiff.mpr h2
      push_cast at h1
      linarith
  · have := two_zpow_le_roundDouble x (-3) (by norm_num) hhigh
    rw [e3] at this hhigh
    constructor <;> intro _ <;> linarith

/-- The rate check of the code, `omp_get_wtime() - last_ctrl_time < 0.1` in
`double` arithmetic, in terms of the exact elapsed time. -/
theorem gate_closed_iff (now last : ℚ) :
    doubleSub now last < double_0_1 ↔ now - last < 7205759403792794 / 2 ^ 56 - 1 / 2 ^ 57 :=
  roundDouble_lt_double_0_1_iff (now - last)

/-- The literal `0.1` is a little more than 1/10. -/
theorem tenth_lt_double_0_1 : (0.1 : ℚ) < double_0_1 := by
  rw [double_0_1_eq]
  norm_num

/-- When the exact elapsed time is not below 1/10, the rate check of the code
is false too. -/
theorem gate_open_of_elapsed (now last : ℚ) (h : ¬ (now - last < 0.1)) :
    ¬ (doubleSub now last < double_0_1) := by
  rw [gate_closed_iff]
  have h1 : (7205759403792794 / 2 ^ 56 - 1 / 2 ^ 57 : ℚ) < 0.1 := by norm_num
  intro h2
  exact h (lt_trans h2 h1)

/-- The state in which `keyboardLoop` enters its loop in the run `boundaryEnv`. -/
theorem setup_boundaryEnv :
    setup TermiosH.linux boundaryEnv (initState TermiosH.linux sampleTerm)
      = { term := makeRaw TermiosH.linux sampleTerm, cooked := sampleTerm,
          raw := makeRaw TermiosH.linux sampleTerm, cmdvel_ := Twist.zero, c := 0,
          last_ctrl_time := -1, ticks := 1,
          trace := [Effect.tcgetattr true, Effect.tcsetattr (makeRaw TermiosH.linux sampleTerm) true,
            Effect.puts "Reading from keyboard", Effect.puts "Use WASD keys to control the robot",
            Effect.puts "Press Shift to move faster"] } := by
  simp [setup, tcgetattrCooked, tcsetattrNow, State.emit, boundaryEnv, initState, boundaryClock]

/-- C5 (as stated, refuted): in the run `boundaryEnv`, the second key `w` is
read when the elapsed time since the gate's timestamp is below 0.1 s, and it
is published; and in a run in which the key `w` is read at start and
rate-limited and the next `read` returns 0, the command of that key is
published by the later iteration, so the key was kept, not dropped. -/
theorem C5_rate_limited_key_is_dropped_counterexample :
    (boundaryClock (loopBody Config.default boundaryClock ⟨1, 1, 0x77⟩
          (setup TermiosH.linux boundaryEnv (initState TermiosH.linux sampleTerm))).2.ticks
        - (loopBody Config.default boundaryClock ⟨1, 1, 0x77⟩
            (setup TermiosH.linux boundaryEnv
              (initState TermiosH.linux sampleTerm))).2.last_ctrl_time < 0.1
      ∧ (loopBody Config.default boundaryClock ⟨1, 1, 0x77⟩
          (loopBody Config.default boundaryClock ⟨1, 1, 0x77⟩
            (setup TermiosH.linux boundaryEnv
              (initState TermiosH.linux sampleTerm))).2).1 = Path.published)
    ∧ ((loopBody Config.default secondsClock ⟨1, 1, 0x77⟩
          (initState TermiosH.linux sampleTerm)).1 = Path.rateLimited
      ∧ sink (runLoop Config.default secondsClock [⟨1, 1, 0x77⟩, ⟨1, 0, 0⟩]
          (initState TermiosH.linux sampleTerm)).trace = [⟨⟨0.2, 0, 0⟩, ⟨0, 0, 0⟩⟩]) := by
  have hkey : ∀ t : Twist, switchKey Config.default (charToInt 0x77) t
      = assign3 t Config.default.walk_vel_ 0 0 := fun t => (switchKey_table _ t).1.1
  refine ⟨?_, ?_⟩
  · rw [setup_boundaryEnv]
    norm_num [loopBody, gateAndPublish, State.emit, boundaryClock, gate_closed_iff,
      tinyReading, tenthReading]
  · constructor
    · norm_num [loopBody, gateAndPublish, State.emit, secondsClock, initState, gate_closed_iff]
    · norm_num [runLoop, loopBody, gateAndPublish, State.emit, secondsClock, initState,
        gate_closed_iff, Path.continues, sink, hkey]
      norm_num [assign3, Config.default, Twist.zero]
      rfl

/-- C5 (amended): an iteration in which a key is read (`poll` and `read` return
positive values) while the rate check of the code holds (the `double`
difference between the clock reading and the gate's timestamp is below the
`double` `0.1`, that is, the elapsed time is below `d - 2⁻⁵⁷` s) publishes
nothing, leaves `cmdvel_` and `last_ctrl_time` unchanged and goes on to the next
iteration; the byte stays in `c` until the next successful read overwrites it,
and has no influence on an iteration that reads another key. -/
theorem C5_rate_limited_key_is_dropped (cfg : Config) (clock : Nat → ℚ) (e : IterEnv)
    (s : State) (hnum : 0 < e.num) (hret : 0 < e.ret)
    (hgate : doubleSub (clock s.ticks) s.last_ctrl_time < double_0_1) :
    (loopBody cfg clock e s).1 = Path.rateLimited
    ∧ clock s.ticks - s.last_ctrl_time < double_0_1 - 1 / 2 ^ 57
    ∧ (loopBody cfg clock e s).2.trace = s.trace ++ [Effect.poll e.num, Effect.read e.ret]
    ∧ sink (loopBody cfg clock e s).2.trace = sink s.trace
    ∧ (loopBody cfg clock e s).2.cmdvel_ = s.cmdvel_
    ∧ (loopBody cfg clock e s).2.last_ctrl_time = s.last_ctrl_time
    ∧ (loopBody cfg clock e s).2.c = e.byte % 256
    ∧ ∀ (e2 : IterEnv) (c2 : Nat), 0 < e2.num → 0 < e2.ret →
        loopBody cfg clock e2 (loopBody cfg clock e s).2
          = loopBody cfg clock e2 { (loopBody cfg clock e s).2 with c := c2 } := by
  have h1 : ¬ e.num < 0 := by omega
  have h2 : ¬ e.ret < 0 := by omega
  have hbody : loopBody cfg clock e s
      = (Path.rateLimited,
          { s with trace := s.trace ++ [Effect.poll e.num] ++ [Effect.read e.ret]
                   c := e.byte % 256
                   ticks := s.ticks + 1 }) := by
    simp [loopBody, gateAndPublish, State.emit, h1, h2, hnum, hret, hgate]
  have hel : clock s.ticks - s.last_ctrl_time < double_0_1 - 1 / 2 ^ 57 := by
    rw [double_0_1_eq]
    exact (gate_closed_iff _ _).mp hgate
  rw [hbody]
  refine ⟨rfl, hel, by simp, by simp [sink, List.filterMap_append], rfl, rfl, rfl, ?_⟩
  intro e2 c2 hn hr
  have h3 : ¬ e2.num < 0 := by omega
  have h4 : ¬ e2.ret < 0 := by omega
  simp [loopBody, State.emit, h3, h4, hn, hr]

/-- The gate stamps of that run: of the six keys, the third and the fifth are
published. -/
theorem gateStamps_sixKeys :
    gateStamps Config.default fastClock sixKeys (initState TermiosH.linux sampleTerm)
      = [0.18, 0.36] := by
  norm_num [gateStamps, sixKeys, loopBody, gateAndPublish, State.emit, initState, fastClock,
    Path.continues, gate_closed_iff]
  simp

/-- C5 (amended) on the key `w` read at the very instant the gate was stamped. -/
theorem C5_rate_limited_key_is_dropped_witness :
    ((0 : Int) < 1 ∧ (0 : Int) < 1
      ∧ doubleSub (secondsClock (initState TermiosH.linux sampleTerm).ticks)
          (initState TermiosH.linux sampleTerm).last_ctrl_time < double_0_1)
    ∧ (loopBody Config.default secondsClock ⟨1, 1, 0x77⟩
        (initState TermiosH.linux sampleTerm)).1 = Path.rateLimited :=
  have hgate : doubleSub (secondsClock (initState TermiosH.linux sampleTerm).ticks)
      (initState TermiosH.linux sampleTerm).last_ctrl_time < double_0_1 := by
    rw [gate_closed_iff]
    norm_num [secondsClock, initState]
  ⟨⟨by decide, by decide, hgate⟩,
    (C5_rate_limited_key_is_dropped Config.default secondsClock ⟨1, 1, 0x77⟩
      (initState TermiosH.linux sampleTerm) (by decide) (by decide) hgate).1⟩

/-! ## The loop does not look at the terminal, the globals or the trace -/

theorem State.restore_restore (s q y : State) :
    (s.restore q).restore y = s.restore (q.restore y) := by
  simp [State.restore, List.append_assoc]

theorem State.norm_restore (s q : State) : (s.restore q).norm = q.norm := rfl

/-- One iteration, computed on the blanked state and put back. -/
theorem loopBody_norm (cfg : Config) (clock : Nat → ℚ) (e : IterEnv) (s : State) :
    loopBody cfg clock e s
      = ((loopBody cfg clock e s.norm).1, s.restore (loopBody cfg clock e s.norm).2) := by
  unfold loopBody gateAndPublish
  simp only [State.emit, State.norm, State.restore]
  split_ifs <;> simp

/-- The whole loop, computed on the blanked state and put back. -/
theorem runLoop_norm (cfg : Config) (clock : Nat → ℚ) (es : List IterEnv) :
    ∀ s : State, runLoop cfg clock es s = s.restore (runLoop cfg clock es s.norm) := by
  induction es with
  | nil => intro s; simp [runLoop, State.restore, State.norm]
  | cons e es ih =>
    intro s
    have hs := loopBody_norm cfg clock e s
    simp only [runLoop]
    rw [hs]
    simp only
    split_ifs
    · rw [ih (s.restore _), State.norm_restore, ih (loopBody cfg clock e s.norm).2,
        State.restore_restore]
    · rfl

/-- The loop leaves the terminal and the globals `cooked` and `raw` alone. -/
theorem runLoop_frame (cfg : Config) (clock : Nat → ℚ) (es : List IterEnv) (s : State) :
    (runLoop cfg clock es s).term = s.term ∧ (runLoop cfg clock es s).cooked = s.cooked
    ∧ (runLoop cfg clock es s).raw = s.raw := by
  rw [runLoop_norm]
  exact ⟨rfl, rfl, rfl⟩

/-- One iteration only adds `poll`, `read`, `perror` and `publish` effects. -/
theorem loopBody_norm_effects (cfg : Config) (clock : Nat → ℚ) (e : IterEnv) (s : State)
    (hs : ∀ x ∈ s.trace, x.isLoopEffect = true) :
    ∀ x ∈ (loopBody cfg clock e s).2.trace, x.isLoopEffect = true := by
  unfold loopBody gateAndPublish
  simp only [State.emit]
  split_ifs <;> simp_all [Effect.isLoopEffect] <;> aesop

/-- The loop only adds `poll`, `read`, `perror` and `publish` effects. -/
theorem runLoop_effects (cfg : Config) (clock : Nat → ℚ) (es : List IterEnv) :
    ∀ s : State, (∀ x ∈ s.trace, x.isLoopEffect = true) →
      ∀ x ∈ (runLoop cfg clock es s).trace, x.isLoopEffect = true := by
  induction es with
  | nil => intro s hs; simpa [runLoop] using hs
  | cons e es ih =>
    intro s hs
    have h1 := loopBody_norm_effects cfg clock e s hs
    simp only [runLoop]
    split_ifs
    · exact ih _ h1
    · exact h1

/-- The trace of `keyboardLoop`: the five set-up effects, then loop effects. -/
theorem keyboardLoop_trace (h : TermiosH) (cfg : Config) (env : Env) (s : State) :
    (keyboardLoop h cfg env s).trace
      = s.trace
        ++ [Effect.tcgetattr env.tcgetattr_ok,
            Effect.tcsetattr (makeRaw h (if env.tcgetattr_ok then s.term else s.cooked))
              env.tcsetattr_raw_ok,
            Effect.puts "Reading from keyboard",
            Effect.puts "Use WASD keys to control the robot",
            Effect.puts "Press Shift to move faster"]
        ++ (runLoop cfg env.clock env.iters (setup h env s).norm).trace := by
  unfold keyboardLoop
  rw [runLoop_norm]
  simp only [State.restore]
  congr 1
  cases hg : env.tcgetattr_ok <;> cases hr : env.tcsetattr_raw_ok <;>
    simp [setup, tcgetattrCooked, tcsetattrNow, State.emit, hg, hr]

/-- What the loop reads after set-up does not depend on the terminal calls. -/
theorem setup_norm (h : TermiosH) (env : Env) (s : State) :
    (setup h env s).norm
      = { s.norm with c := env.c0 % 256, last_ctrl_time := env.clock s.ticks,
                      ticks := s.ticks + 1 } := by
  cases hg : env.tcgetattr_ok <;> cases hr : env.tcsetattr_raw_ok <;>
    simp [setup, tcgetattrCooked, tcsetattrNow, State.emit, State.norm, hg, hr]

/-- The terminal and the globals after `keyboardLoop`. -/
theorem keyboardLoop_term (h : TermiosH) (cfg : Config) (env : Env) (s : State) :
    (keyboardLoop h cfg env s).cooked = (if env.tcgetattr_ok then s.term else s.cooked)
    ∧ (keyboardLoop h cfg env s).raw = makeRaw h (keyboardLoop h cfg env s).cooked
    ∧ (keyboardLoop h cfg env s).term
        = (if env.tcsetattr_raw_ok then (keyboardLoop h cfg env s).raw else s.term) := by
  unfold keyboardLoop
  obtain ⟨h1, h2, h3⟩ := runLoop_frame cfg env.clock env.iters (setup h env s)
  rw [h1, h2, h3]
  cases hg : env.tcgetattr_ok <;> cases hr : env.tcsetattr_raw_ok <;>
    simp [setup, tcgetattrCooked, tcsetattrNow, State.emit, hg, hr]

/-- The shutdown sequence appends `stopRobot`'s publish, then the `tcsetattr`. -/
theorem shutdown_trace (env : Env) (s : State) :
    (shutdown env s).2.trace
      = s.trace ++ [Effect.stopRobot, Effect.publish Twist.zero,
          Effect.tcsetattr s.cooked env.tcsetattr_cooked_ok] := by
  cases hc : env.tcsetattr_cooked_ok <;>
    simp [shutdown, stopRobot, tcsetattrNow, State.emit, hc]

/-! ## Shutdown -/

/-- In a trace `[stopRobot, publish m, tcsetattr t ok]` the publish comes before
the `tcsetattr` and not after it. -/
theorem precedes_shutdown_suffix (m : Twist) (t : Termios) (ok : Bool) :
    Precedes (Effect.publish m) (Effect.tcsetattr t ok)
        [Effect.stopRobot, Effect.publish m, Effect.tcsetattr t ok]
    ∧ ¬ Precedes (Effect.tcsetattr t ok) (Effect.publish m)
        [Effect.stopRobot, Effect.publish m, Effect.tcsetattr t ok] := by
  refine ⟨⟨1, 2, by decide, rfl, rfl⟩, ?_⟩
  rintro ⟨i, j, hij, hi, hj⟩
  match i, j, hij, hi, hj with
  | 0, _, _, hi, _ => simp at hi
  | 1, _, _, hi, _ => simp at hi
  | 2, j + 3, _, _, hj => simp at hj
  | i + 3, _, _, hi, _ => simp at hi

/-- The trace of `main`: the trace of `keyboardLoop`, then the shutdown sequence. -/
theorem main_trace (h : TermiosH) (cfg : Config) (env : Env) (term0 : Termios) :
    (main h cfg env term0).2.trace
      = (keyboardLoop h cfg env (initState h term0)).trace
        ++ [Effect.stopRobot, Effect.publish Twist.zero,
            Effect.tcsetattr (keyboardLoop h cfg env (initState h term0)).cooked
              env.tcsetattr_cooked_ok] := by
  unfold main
  rw [shutdown_trace]

/-- C6 (as stated, refuted): in the run `sampleEnv` on the terminal `sampleTerm`,
the part of the trace of `main` after the thread is joined has no `tcsetattr`
of the captured configuration before the zero publish of `stopRobot`. -/
theorem C6_restore_before_stop_counterexample :
    ¬ Precedes (Effect.tcsetattr sampleTerm true) (Effect.publish Twist.zero)
        ((main TermiosH.linux Config.default sampleEnv sampleTerm).2.trace.drop
          (keyboardLoop TermiosH.linux Config.default sampleEnv
            (initState TermiosH.linux sampleTerm)).trace.length) := by
  rw [main_trace, List.drop_left,
    (keyboardLoop_term TermiosH.linux Config.default sampleEnv
      (initState TermiosH.linux sampleTerm)).1]
  exact (precedes_shutdown_suffix Twist.zero sampleTerm true).2

/-- C6 (amended): on shutdown `stopRobot` (the zero-velocity publish) is invoked
before the terminal configuration is restored: the trace of `main` after the
thread is joined is exactly `stopRobot`'s publish followed by the `tcsetattr`
of the global `cooked`, so the publish precedes the `tcsetattr` and not the
other way round. -/
theorem C6_stop_before_restore (h : TermiosH) (cfg : Config) (env : Env) (term0 : Termios) :
    (main h cfg env term0).2.trace.drop (keyboardLoop h cfg env (initState h term0)).trace.length
      = [Effect.stopRobot, Effect.publish Twist.zero,
          Effect.tcsetattr (keyboardLoop h cfg env (initState h term0)).cooked
            env.tcsetattr_cooked_ok]
    ∧ Precedes (Effect.publish Twist.zero)
        (Effect.tcsetattr (keyboardLoop h cfg env (initState h term0)).cooked
          env.tcsetattr_cooked_ok)
        ((main h cfg env term0).2.trace.drop
          (keyboardLoop h cfg env (initState h term0)).trace.length)
    ∧ ¬ Precedes
        (Effect.tcsetattr (keyboardLoop h cfg env (initState h term0)).cooked
          env.tcsetattr_cooked_ok)
        (Effect.publish Twist.zero)
        ((main h cfg env term0).2.trace.drop
          (keyboardLoop h cfg env (initState h term0)).trace.length) := by
  rw [main_trace, List.drop_left]
  exact ⟨rfl, precedes_shutdown_suffix _ _ _⟩

/-- C7: in every run in which `ros::spin()` returns, `stopRobot` is invoked
exactly once, and the last message the sink records is the all-zero `Twist`,
whatever the loop processed before. -/
theorem C7_stop_once_and_last_message_zero (h : TermiosH) (cfg : Config) (env : Env)
    (term0 : Termios) :
    (main h cfg env term0).2.trace.count Effect.stopRobot = 1
    ∧ (sink (main h cfg env term0).2.trace).getLast? = some Twist.zero := by
  have hloop : ∀ x ∈ (runLoop cfg env.clock env.iters
      (setup h env (initState h term0)).norm).trace, x.isLoopEffect = true :=
    runLoop_effects cfg env.clock env.iters _ (by simp [State.norm])
  have hnot : Effect.stopRobot ∉ (runLoop cfg env.clock env.iters
      (setup h env (initState h term0)).norm).trace := fun hmem => by
    have := hloop _ hmem
    simp [Effect.isLoopEffect] at this
  constructor
  · have htr : (initState h term0).trace = [] := rfl
    rw [main_trace, keyboardLoop_trace, htr]
    simp only [List.count_append, List.count_eq_zero.mpr hnot]
    simp
  · rw [main_trace]
    simp [sink, List.filterMap_append]

/-- C8: when `tcgetattr` and the final `tcsetattr` succeed, after the shutdown
sequence the terminal has exactly the configuration it had at acquisition,
which is the one captured in `cooked`, whatever that configuration was; in
between, the terminal had the raw configuration whenever the `tcsetattr` of
the acquisition succeeded. -/
theorem C8_terminal_restored (h : TermiosH) (cfg : Config) (env : Env) (term0 : Termios)
    (hget : env.tcgetattr_ok = true) (hset : env.tcsetattr_cooked_ok = true) :
    (main h cfg env term0).2.term = term0
    ∧ (main h cfg env term0).2.cooked = term0
    ∧ (keyboardLoop h cfg env (initState h term0)).term
        = (if env.tcsetattr_raw_ok then makeRaw h term0 else term0) := by
  obtain ⟨h1, h2, h3⟩ := keyboardLoop_term h cfg env (initState h term0)
  have hterm : (initState h term0).term = term0 := rfl
  rw [if_pos hget, hterm] at h1
  rw [h1] at h2
  rw [h2, hterm] at h3
  refine ⟨?_, ?_, h3⟩
  · simp [main, shutdown, tcsetattrNow, stopRobot, State.emit, hset, h1]
  · simp [main, shutdown, tcsetattrNow, stopRobot, State.emit, hset, h1]

/-- C8 on the run `sampleEnv`: the terminal was really switched to a different
configuration in between. -/
theorem C8_terminal_restored_witness :
    (sampleEnv.tcgetattr_ok = true ∧ sampleEnv.tcsetattr_cooked_ok = true)
    ∧ (main TermiosH.linux Config.default sampleEnv sampleTerm).2.term = sampleTerm
    ∧ makeRaw TermiosH.linux sampleTerm ≠ sampleTerm :=
  ⟨⟨rfl, rfl⟩,
    (C8_terminal_restored TermiosH.linux Config.default sampleEnv sampleTerm rfl rfl).1,
    by decide⟩

/-! ## Raw mode -/

/-- Bit `i` of `flags &= ~mask` for 32-bit operands. -/
theorem testBit_andNot32 (flags mask : Nat) (hf : flags < 2 ^ 32) (hm : mask < 2 ^ 32)
    (i : Nat) : (andNot32 flags mask).testBit i = (flags.testBit i && !mask.testBit i) := by
  unfold andNot32
  rw [Nat.mod_eq_of_lt hm, Nat.testBit_and, Nat.sub_sub, Nat.add_comm 1 mask,
    Nat.testBit_two_pow_sub_succ hm]
  by_cases hi : i < 32
  · simp [hi]
  · have hlt : flags < 2 ^ i :=
      lt_of_lt_of_le hf (Nat.pow_le_pow_right (by decide) (by omega))
    simp [Nat.testBit_lt_two_pow hlt]

/-- C9 (as stated, refuted): with the Linux constants and the terminal
`sampleTerm`, the control character at index 11 (`VEOL`), which is neither the
minimum-read character (`VMIN`, index 6) nor the end-of-file character (`VEOF`,
index 4), differs between the applied and the captured configuration, while the
minimum-read character is the captured one. -/
theorem C9_raw_mode_frame_counterexample :
    (11 ≠ TermiosH.linux.VMIN ∧ 11 ≠ TermiosH.linux.VEOF)
    ∧ (makeRaw TermiosH.linux sampleTerm).c_cc[11]? ≠ sampleTerm.c_cc[11]?
    ∧ (makeRaw TermiosH.linux sampleTerm).c_cc[TermiosH.linux.VMIN]?
        = sampleTerm.c_cc[TermiosH.linux.VMIN]? := by
  decide

/-- C9 (amended): for every captured configuration (32-bit local flags) the
configuration built by `keyboardLoop` equals the captured one except that the
local flags `ICANON` and `ECHO` are cleared, the control character `c_cc[VEOL]`
is set to 1 and the control character `c_cc[VEOF]` is set to 2; every other
flag and control character is unchanged. -/
theorem C9_raw_mode_frame (h : TermiosH) (cooked : Termios)
    (hflags : cooked.c_lflag < 2 ^ 32) (hmask : h.ICANON ||| h.ECHO < 2 ^ 32) :
    ((makeRaw h cooked).c_iflag = cooked.c_iflag
      ∧ (makeRaw h cooked).c_oflag = cooked.c_oflag
      ∧ (makeRaw h cooked).c_cflag = cooked.c_cflag)
    ∧ (∀ i : Nat, (makeRaw h cooked).c_lflag.testBit i
        = (cooked.c_lflag.testBit i && !(h.ICANON.testBit i || h.ECHO.testBit i)))
    ∧ (makeRaw h cooked).c_cc.length = cooked.c_cc.length
    ∧ (h.VEOF < cooked.c_cc.length → (makeRaw h cooked).c_cc[h.VEOF]? = some 2)
    ∧ (h.VEOL < cooked.c_cc.length → h.VEOL ≠ h.VEOF →
        (makeRaw h cooked).c_cc[h.VEOL]? = some 1)
    ∧ (∀ i : Nat, i ≠ h.VEOL → i ≠ h.VEOF → (makeRaw h cooked).c_cc[i]? = cooked.c_cc[i]?) := by
  refine ⟨⟨rfl, rfl, rfl⟩, ?_, ?_, ?_, ?_, ?_⟩
  · intro i
    show (andNot32 cooked.c_lflag (h.ICANON ||| h.ECHO)).testBit i = _
    rw [testBit_andNot32 _ _ hflags hmask, Nat.testBit_or]
  · simp [makeRaw]
  · intro hlen
    simp [makeRaw, List.getElem?_set, hlen]
  · intro hlen hne
    simp [makeRaw, List.getElem?_set, hlen, hne, Ne.symm hne]
  · intro i h1 h2
    simp [makeRaw, List.getElem?_set, Ne.symm h1, Ne.symm h2]

/-- C9 (amended) on the terminal `sampleTerm` with the Linux constants:
`ICANON` (bit 1) is cleared, `ISIG` (bit 0) is kept. -/
theorem C9_raw_mode_frame_witness :
    (sampleTerm.c_lflag < 2 ^ 32 ∧ TermiosH.linux.ICANON ||| TermiosH.linux.ECHO < 2 ^ 32)
    ∧ (makeRaw TermiosH.linux sampleTerm).c_lflag.testBit 1
        = (sampleTerm.c_lflag.testBit 1
            && !(TermiosH.linux.ICANON.testBit 1 || TermiosH.linux.ECHO.testBit 1))
    ∧ (makeRaw TermiosH.linux sampleTerm).c_lflag.testBit 0 = true :=
  ⟨⟨by decide, by decide⟩,
    (C9_raw_mode_frame TermiosH.linux sampleTerm (by decide) (by decide)).2.1 1,
    by decide⟩

/-! ## Failing terminal calls -/

/-- The first thing the loop does with a pending iteration is to `poll`. -/
theorem runLoop_cons_poll (cfg : Config) (clock : Nat → ℚ) (e : IterEnv) (es : List IterEnv)
    (s : State) : Effect.poll e.num ∈ (runLoop cfg clock (e :: es) s).trace := by
  have hbody : Effect.poll e.num ∈ (loopBody cfg clock e s).2.trace := by
    unfold loopBody gateAndPublish
    simp only [State.emit]
    split_ifs <;> simp
  simp only [runLoop]
  split_ifs
  · rw [runLoop_norm]
    exact List.mem_append_left _ hbody
  · exact hbody

/-- C10 (as stated, refuted): in the run `failEnv`, where `tcgetattr` and
`tcsetattr` both fail, `keyboardLoop` polls, reads and publishes the command of
the key `w`. -/
theorem C10_no_loop_after_failed_acquisition_counterexample :
    (failEnv.tcgetattr_ok = false ∧ failEnv.tcsetattr_raw_ok = false)
    ∧ (keyboardLoop TermiosH.linux Config.default failEnv
        (initState TermiosH.linux sampleTerm)).trace
      = [Effect.tcgetattr false,
          Effect.tcsetattr (makeRaw TermiosH.linux (Termios.zero TermiosH.linux)) false,
          Effect.puts "Reading from keyboard",
          Effect.puts "Use WASD keys to control the robot",
          Effect.puts "Press Shift to move faster",
          Effect.poll 1, Effect.read 1,
          Effect.publish ⟨⟨0.2, 0, 0⟩, ⟨0, 0, 0⟩⟩] := by
  refine ⟨⟨rfl, rfl⟩, ?_⟩
  rw [keyboardLoop_trace, setup_norm]
  have hkey : switchKey Config.default (charToInt (0x77 % 256)) Twist.zero
      = ⟨⟨0.2, 0, 0⟩, ⟨0, 0, 0⟩⟩ := by
    rw [show (0x77 % 256 : Nat) = 0x77 from rfl, (switchKey_table _ _).1.1]
    rfl
  norm_num [failEnv, initState, State.norm, runLoop, loopBody, gateAndPublish, State.emit,
    secondsClock, Path.continues, hkey, gate_closed_iff]

/-- C10 (amended): `keyboardLoop` does not inspect the results of `tcgetattr`
and `tcsetattr`: whether or not they fail it enters its poll loop (a pending
iteration is polled), and it performs exactly the polls, reads and publishes,
and ends with the same command, as in the run in which both calls succeed. -/
theorem C10_loop_entered_regardless (h : TermiosH) (cfg : Config) (env : Env) (s : State) :
    (keyboardLoop h cfg env s).trace.filter Effect.isLoopEffect
      = (keyboardLoop h cfg { env with tcgetattr_ok := true, tcsetattr_raw_ok := true }
          s).trace.filter Effect.isLoopEffect
    ∧ (keyboardLoop h cfg env s).cmdvel_
      = (keyboardLoop h cfg { env with tcgetattr_ok := true, tcsetattr_raw_ok := true }
          s).cmdvel_
    ∧ ∀ (e : IterEnv) (es : List IterEnv), env.iters = e :: es →
        Effect.poll e.num ∈ (keyboardLoop h cfg env s).trace := by
  refine ⟨?_, ?_, ?_⟩
  · rw [keyboardLoop_trace, keyboardLoop_trace, setup_norm, setup_norm]
    simp [List.filter_append, Effect.isLoopEffect]
  · have e1 := runLoop_norm cfg env.clock env.iters (setup h env s)
    have e2 := runLoop_norm cfg env.clock env.iters
      (setup h { env with tcgetattr_ok := true, tcsetattr_raw_ok := true } s)
    rw [setup_norm] at e1 e2
    unfold keyboardLoop
    rw [e1, e2]
    rfl
  · intro e es hes
    unfold keyboardLoop
    rw [hes]
    exact runLoop_cons_poll cfg env.clock e es _

/-- C10 (amended) on the run `failEnv`: its only iteration is polled. -/
theorem C10_loop_entered_regardless_witness :
    failEnv.iters = [⟨1, 1, 0x77⟩]
    ∧ Effect.poll 1 ∈ (keyboardLoop TermiosH.linux Config.default failEnv
        (initState TermiosH.linux sampleTerm)).trace :=
  ⟨rfl, (C10_loop_entered_regardless TermiosH.linux Config.default failEnv
    (initState TermiosH.linux sampleTerm)).2.2 ⟨1, 1, 0x77⟩ [] rfl⟩

/-! ## The fields of `cmdvel_` that are never written -/

/-- One iteration leaves `linear.z`, `angular.x` and `angular.y` of `cmdvel_` alone. -/
theorem loopBody_cmdvel_rest (cfg : Config) (clock : Nat → ℚ) (e : IterEnv) (s : State) :
    (loopBody cfg clock e s).2.cmdvel_.rest = s.cmdvel_.rest := by
  unfold loopBody gateAndPublish
  simp only [State.emit]
  split_ifs <;> simp [switchKey_rest]

/-- Throughout a run of `main` the three fields of `cmdvel_` that no statement
assigns keep the zero of the default-constructed message. -/
theorem keyboardLoop_cmdvel_rest (h : TermiosH) (cfg : Config) (env : Env) (term0 : Termios) :
    (keyboardLoop h cfg env (initState h term0)).cmdvel_.rest = (0, 0, 0) := by
  have hloop : ∀ (es : List IterEnv) (s : State),
      (runLoop cfg env.clock es s).cmdvel_.rest = s.cmdvel_.rest := by
    intro es
    induction es with
    | nil => intro s; rfl
    | cons e es ih =>
      intro s
      simp only [runLoop]
      split_ifs
      · rw [ih, loopBody_cmdvel_rest]
      · rw [loopBody_cmdvel_rest]
  unfold keyboardLoop
  rw [hloop]
  cases hg : env.tcgetattr_ok <;> cases hr : env.tcsetattr_raw_ok <;>
    simp [setup, tcgetattrCooked, tcsetattrNow, State.emit, hg, hr, initState, Twist.rest,
      Twist.zero]

/-! ## Exit status and fatal I/O errors -/

/-- C11 (as stated, refuted): in the run `pollFailEnv` the keyboard loop ends
because `poll` fails (its `perror("poll():")` is in the trace and the key that
follows is never polled), and the exit status of `main` is zero all the same. -/
theorem C11_exit_status_counterexample :
    Effect.perror "poll():" ∈ (main TermiosH.linux Config.default pollFailEnv sampleTerm).2.trace
    ∧ Effect.poll 1 ∉ (main TermiosH.linux Config.default pollFailEnv sampleTerm).2.trace
    ∧ (main TermiosH.linux Config.default pollFailEnv sampleTerm).1 = 0 := by
  refine ⟨?_, ?_, rfl⟩
  · rw [main_trace, keyboardLoop_trace, setup_norm]
    simp [pollFailEnv, runLoop, loopBody, State.emit, Path.continues]
  · rw [main_trace, keyboardLoop_trace, setup_norm]
    simp [pollFailEnv, runLoop, loopBody, State.emit, Path.continues, initState, State.norm]

/-- C11 (amended): the exit status of `main` is zero in every run in which
`ros::spin()` returns, whether the shutdown is clean or the keyboard loop has
ended because `poll` or `read` failed (a failure of the first iteration leaves
its `perror` in the trace of that same run). -/
theorem C11_exit_status_always_zero (h : TermiosH) (cfg : Config) (env : Env)
    (term0 : Termios) :
    (main h cfg env term0).1 = 0
    ∧ ∀ (e : IterEnv) (es : List IterEnv), env.iters = e :: es →
        (e.num < 0 → Effect.perror "poll():" ∈ (main h cfg env term0).2.trace)
        ∧ (0 < e.num → e.ret < 0 → Effect.perror "read():" ∈ (main h cfg env term0).2.trace) := by
  refine ⟨rfl, fun e es hes => ⟨fun hneg => ?_, fun hpos hneg => ?_⟩⟩
  · rw [main_trace]
    apply List.mem_append_left
    unfold keyboardLoop
    rw [hes]
    simp [runLoop, loopBody, State.emit, hneg, Path.continues]
  · have h1 : ¬ e.num < 0 := by omega
    rw [main_trace]
    apply List.mem_append_left
    unfold keyboardLoop
    rw [hes]
    simp [runLoop, loopBody, State.emit, h1, hpos, hneg, Path.continues]

/-- C11 (amended) on the run `pollFailEnv`, whose first `poll` returns `-1`. -/
theorem C11_exit_status_always_zero_witness :
    (pollFailEnv.iters = [⟨-1, 0, 0⟩, ⟨1, 1, 0x77⟩] ∧ (-1 : Int) < 0)
    ∧ (main TermiosH.linux Config.default pollFailEnv sampleTerm).1 = 0
    ∧ Effect.perror "poll():"
        ∈ (main TermiosH.linux Config.default pollFailEnv sampleTerm).2.trace :=
  ⟨⟨rfl, by decide⟩,
    (C11_exit_status_always_zero TermiosH.linux Config.default pollFailEnv sampleTerm).1,
    ((C11_exit_status_always_zero TermiosH.linux Config.default pollFailEnv sampleTerm).2
      ⟨-1, 0, 0⟩ [⟨1, 1, 0x77⟩] rfl).1 (by decide)⟩

/-- C12: when `poll` returns a negative value, or `poll` reports readiness and
`read` returns a negative value, `keyboardLoop` returns in that iteration: the
remaining iterations are not run, the failed call is made once and followed only
by `perror`, nothing is published, and `cmdvel_` and `last_ctrl_time` are as
they were. -/
theorem C12_io_error_ends_loop (cfg : Config) (clock : Nat → ℚ) (e : IterEnv)
    (es : List IterEnv) (s : State) (herr : e.num < 0 ∨ (0 < e.num ∧ e.ret < 0)) :
    runLoop cfg clock (e :: es) s = (loopBody cfg clock e s).2
    ∧ (loopBody cfg clock e s).1.continues = false
    ∧ (runLoop cfg clock (e :: es) s).trace
        = s.trace ++ (if e.num < 0 then [Effect.poll e.num, Effect.perror "poll():"]
            else [Effect.poll e.num, Effect.read e.ret, Effect.perror "read():"])
    ∧ sink (runLoop cfg clock (e :: es) s).trace = sink s.trace
    ∧ (runLoop cfg clock (e :: es) s).cmdvel_ = s.cmdvel_
    ∧ (runLoop cfg clock (e :: es) s).last_ctrl_time = s.last_ctrl_time := by
  rcases herr with hp | ⟨hn, hr⟩
  · have hbody : loopBody cfg clock e s
        = (Path.pollError,
            { s with trace := s.trace ++ [Effect.poll e.num] ++ [Effect.perror "poll():"] }) := by
      simp [loopBody, State.emit, hp]
    simp [runLoop, hbody, Path.continues, hp, sink, List.filterMap_append]
  · have h1 : ¬ e.num < 0 := by omega
    have hbody : loopBody cfg clock e s
        = (Path.readError,
            { s with trace := s.trace ++ [Effect.poll e.num] ++ [Effect.read e.ret]
                                ++ [Effect.perror "read():"] }) := by
      simp [loopBody, State.emit, h1, hn, hr]
    simp [runLoop, hbody, Path.continues, h1, sink, List.filterMap_append]

/-- C12 on a failing `poll` followed by a key that is never read. -/
theorem C12_io_error_ends_loop_witness :
    (((-1 : Int) < 0) ∨ ((0 : Int) < -1 ∧ (0 : Int) < 0))
    ∧ runLoop Config.default secondsClock [⟨-1, 0, 0⟩, ⟨1, 1, 0x77⟩]
          (initState TermiosH.linux sampleTerm)
        = (loopBody Config.default secondsClock ⟨-1, 0, 0⟩
            (initState TermiosH.linux sampleTerm)).2 :=
  ⟨Or.inl (by decide),
    (C12_io_error_ends_loop Config.default secondsClock ⟨-1, 0, 0⟩ [⟨1, 1, 0x77⟩]
      (initState TermiosH.linux sampleTerm) (Or.inl (by decide))).1⟩

/-! ## Poll time-outs -/

/-- An iteration whose `poll` returns 0 only records the `poll`. -/
theorem loopBody_timeout (cfg : Config) (clock : Nat → ℚ) (e : IterEnv) (s : State)
    (h0 : e.num = 0) :
    loopBody cfg clock e s = (Path.timedOut, { s with trace := s.trace ++ [Effect.poll 0] }) := by
  simp [loopBody, State.emit, h0]

/-- A run of time-outs only records its polls, and the loop goes on after it. -/
theorem runLoop_timeouts (cfg : Config) (clock : Nat → ℚ) (es rest : List IterEnv) :
    ∀ s : State, (∀ e ∈ es, e.num = 0) →
      runLoop cfg clock (es ++ rest) s
        = runLoop cfg clock rest
            { s with trace := s.trace ++ List.replicate es.length (Effect.poll 0) } := by
  induction es with
  | nil => intro s _; simp
  | cons e es ih =>
    intro s hes
    have h0 : e.num = 0 := hes e (List.mem_cons_self _ _)
    have htl : ∀ x ∈ es, x.num = 0 := fun x hx => hes x (List.mem_cons_of_mem _ hx)
    simp only [List.cons_append, runLoop, loopBody_timeout cfg clock e s h0, Path.continues,
      if_true, List.append_eq]
    rw [ih _ htl]
    simp [List.replicate_succ, List.append_assoc]

/-- C13: for every number of consecutive poll time-outs (`poll` returns 0) the
loop publishes nothing, leaves `cmdvel_`, `last_ctrl_time` and every other part
of the state but the trace unchanged, records only the polls (no `perror`),
and goes on with whatever iteration follows; in particular after four
time-outs of 250 ms. -/
theorem C13_timeouts_are_noops (cfg : Config) (clock : Nat → ℚ) (es : List IterEnv)
    (s : State) (hes : ∀ e ∈ es, e.num = 0) :
    (runLoop cfg clock es s
        = { s with trace := s.trace ++ List.replicate es.length (Effect.poll 0) }
      ∧ sink (runLoop cfg clock es s).trace = sink s.trace
      ∧ (runLoop cfg clock es s).cmdvel_ = s.cmdvel_
      ∧ (runLoop cfg clock es s).last_ctrl_time = s.last_ctrl_time
      ∧ ∀ rest : List IterEnv,
          runLoop cfg clock (es ++ rest) s = runLoop cfg clock rest (runLoop cfg clock es s))
    ∧ runLoop cfg clock fourTimeouts s
        = { s with trace := s.trace ++ [Effect.poll 0, Effect.poll 0, Effect.poll 0,
              Effect.poll 0] } := by
  have hrun : ∀ (l : List IterEnv), (∀ e ∈ l, e.num = 0) → runLoop cfg clock l s
      = { s with trace := s.trace ++ List.replicate l.length (Effect.poll 0) } := by
    intro l hl
    have := runLoop_timeouts cfg clock l [] s hl
    simpa [runLoop] using this
  refine ⟨⟨hrun es hes, ?_, ?_, ?_, ?_⟩, ?_⟩
  · rw [hrun es hes]
    simp [sink, List.filterMap_append, List.filterMap_replicate]
  · rw [hrun es hes]
  · rw [hrun es hes]
  · intro rest
    rw [hrun es hes, runLoop_timeouts cfg clock es rest s hes]
  · rw [hrun fourTimeouts (by simp [fourTimeouts])]
    rfl

/-- C13 on four time-outs after start: the sink stays empty. -/
theorem C13_timeouts_are_noops_witness :
    (∀ e ∈ fourTimeouts, e.num = 0)
    ∧ sink (runLoop Config.default secondsClock fourTimeouts
        (initState TermiosH.linux sampleTerm)).trace = [] :=
  have hes : ∀ e ∈ fourTimeouts, e.num = 0 := by simp [fourTimeouts]
  ⟨hes, (C13_timeouts_are_noops Config.default secondsClock fourTimeouts
    (initState TermiosH.linux sampleTerm) hes).1.2.1⟩

/-! ## Shifted keys -/

/-- C14: for every config (and every previous command) and each of the seven
letters `w a s d x j k`, the uppercase key is mapped like the lowercase key
under the config whose `walk_vel` is replaced by `run_vel`: same axis, same
sign, run speed. -/
theorem C14_uppercase_is_lowercase_at_run_speed (cfg : Config) (prev : Twist) :
    switchKey cfg (charToInt 0x57) prev
        = switchKey { cfg with walk_vel_ := cfg.run_vel_ } (charToInt 0x77) prev
    ∧ switchKey cfg (charToInt 0x41) prev
        = switchKey { cfg with walk_vel_ := cfg.run_vel_ } (charToInt 0x61) prev
    ∧ switchKey cfg (charToInt 0x53) prev
        = switchKey { cfg with walk_vel_ := cfg.run_vel_ } (charToInt 0x73) prev
    ∧ switchKey cfg (charToInt 0x44) prev
        = switchKey { cfg with walk_vel_ := cfg.run_vel_ } (charToInt 0x64) prev
    ∧ switchKey cfg (charToInt 0x58) prev
        = switchKey { cfg with walk_vel_ := cfg.run_vel_ } (charToInt 0x78) prev
    ∧ switchKey cfg (charToInt 0x4A) prev
        = switchKey { cfg with walk_vel_ := cfg.run_vel_ } (charToInt 0x6A) prev
    ∧ switchKey cfg (charToInt 0x4B) prev
        = switchKey { cfg with walk_vel_ := cfg.run_vel_ } (charToInt 0x6B) prev := by
  obtain ⟨-, u1, u2, u3, u4, u5, u6, u7⟩ := switchKey_table cfg prev
  obtain ⟨⟨l1, l2, l3, l4, l5, l6, l7⟩, -⟩ :=
    switchKey_table { cfg with walk_vel_ := cfg.run_vel_ } prev
  rw [u1, u2, u3, u4, u5, u6, u7, l1, l2, l3, l4, l5, l6, l7]
  exact ⟨rfl, rfl, rfl, rfl, rfl, rfl, rfl⟩

/-- C15 (as stated, refuted): with `run_vel = 0.5` and `yaw_rate = 0.3`, the
commands of the fast rotation keys `J` and `K` have an `angular.z` whose
magnitude is not `yaw_rate`. -/
theorem C15_fast_rotation_counterexample :
    |(switchKey slowYawConfig (charToInt 0x4A) Twist.zero).angular.z| ≠ slowYawConfig.yaw_rate_
    ∧ |(switchKey slowYawConfig (charToInt 0x4B) Twist.zero).angular.z|
        ≠ slowYawConfig.yaw_rate_ := by
  obtain ⟨-, -, -, -, -, -, u6, u7⟩ := switchKey_table slowYawConfig Twist.zero
  rw [u6, u7]
  norm_num [assign3, slowYawConfig, abs_of_pos]

/-- C15 (amended): for every config, each fast (uppercase) linear key `W`, `A`,
`D`, `X` produces a command whose linear field is `run_vel` or `-run_vel`, and
each fast rotation key `J`, `K` produces a command whose `angular.z` is
`run_vel` or `-run_vel`: all six have the magnitude of `run_vel`. -/
theorem C15_fast_keys_use_run_vel (cfg : Config) (prev : Twist) :
    ((switchKey cfg (charToInt 0x57) prev).cmd = (cfg.run_vel_, 0, 0)
      ∧ (switchKey cfg (charToInt 0x41) prev).cmd = (0, cfg.run_vel_, 0)
      ∧ (switchKey cfg (charToInt 0x44) prev).cmd = (0, -cfg.run_vel_, 0)
      ∧ (switchKey cfg (charToInt 0x58) prev).cmd = (-cfg.run_vel_, 0, 0)
      ∧ (switchKey cfg (charToInt 0x4A) prev).cmd = (0, 0, cfg.run_vel_)
      ∧ (switchKey cfg (charToInt 0x4B) prev).cmd = (0, 0, -cfg.run_vel_))
    ∧ (|(switchKey cfg (charToInt 0x57) prev).linear.x| = |cfg.run_vel_|
      ∧ |(switchKey cfg (charToInt 0x41) prev).linear.y| = |cfg.run_vel_|
      ∧ |(switchKey cfg (charToInt 0x44) prev).linear.y| = |cfg.run_vel_|
      ∧ |(switchKey cfg (charToInt 0x58) prev).linear.x| = |cfg.run_vel_|
      ∧ |(switchKey cfg (charToInt 0x4A) prev).angular.z| = |cfg.run_vel_|
      ∧ |(switchKey cfg (charToInt 0x4B) prev).angular.z| = |cfg.run_vel_|) := by
  obtain ⟨-, u1, -, u3, u4, u5, u6, u7⟩ := switchKey_table cfg prev
  rw [u1, u3, u4, u5, u6, u7]
  refine ⟨⟨rfl, rfl, rfl, rfl, rfl, rfl⟩, ?_⟩
  simp [assign3]

/-! ## What a published command depends on -/

/-- A `Twist` is determined by its command part and the fields never written. -/
theorem Twist.eq_of_cmd_rest (a b : Twist) (hc : a.cmd = b.cmd) (hr : a.rest = b.rest) :
    a = b := by
  obtain ⟨⟨x, y, z⟩, ⟨ax, ay, az⟩⟩ := a
  obtain ⟨⟨x2, y2, z2⟩, ⟨ax2, ay2, az2⟩⟩ := b
  simp only [Twist.cmd, Twist.rest, Prod.mk.injEq] at hc hr
  obtain ⟨rfl, rfl, rfl⟩ := hc
  obtain ⟨rfl, rfl, rfl⟩ := hr
  rfl

/-- The three fields the `switch` assigns do not depend on the previous command. -/
theorem switchKey_cmd_indep (cfg : Config) (c : Int) (t1 t2 : Twist) :
    (switchKey cfg c t1).cmd = (switchKey cfg c t2).cmd := by
  simp only [switchKey, apply_ite Twist.cmd, assign3_cmd]

/-- The trace and the command of an iteration that publishes. -/
theorem loopBody_published_state (cfg : Config) (clock : Nat → ℚ) (e : IterEnv) (s : State)
    (h : (loopBody cfg clock e s).1 = Path.published) :
    (loopBody cfg clock e s).2
      = { s with c := if e.ret > 0 then e.byte % 256 else s.c
                 cmdvel_ := switchKey cfg (charToInt (if e.ret > 0 then e.byte % 256 else s.c))
                   s.cmdvel_
                 last_ctrl_time := clock (s.ticks + 1)
                 ticks := s.ticks + 1 + 1
                 trace := s.trace ++ [Effect.poll e.num] ++ [Effect.read e.ret]
                   ++ [Effect.publish (switchKey cfg
                        (charToInt (if e.ret > 0 then e.byte % 256 else s.c)) s.cmdvel_)] } := by
  unfold loopBody gateAndPublish at *
  simp only [State.emit] at *
  split_ifs at h ⊢ <;> simp_all

/-- Whether an iteration publishes does not depend on `cmdvel_`. -/
theorem loopBody_path_indep (cfg : Config) (clock : Nat → ℚ) (e : IterEnv) (s : State)
    (t : Twist) :
    (loopBody cfg clock e { s with cmdvel_ := t }).1 = (loopBody cfg clock e s).1 := by
  unfold loopBody gateAndPublish
  simp only [State.emit]
  split_ifs <;> rfl

/-- C16: the command published by an iteration that is not rate-limited does not
depend on the previous `cmdvel_`. From two states that differ only in `cmdvel_`,
the same key is published in both or in neither, and the three fields every
branch of the `switch` overwrites (`linear.x`, `linear.y`, `angular.z`) of the
new `cmdvel_`, which is the message published, are the same; when the two
previous commands agree on the fields no statement writes (in every run they
are zero), the new `cmdvel_`, the published message and the whole trace are
the same. -/
theorem C16_published_command_independent_of_previous (cfg : Config) (clock : Nat → ℚ)
    (e : IterEnv) (s : State) (t1 t2 : Twist)
    (hpub : (loopBody cfg clock e { s with cmdvel_ := t1 }).1 = Path.published) :
    (loopBody cfg clock e { s with cmdvel_ := t2 }).1 = Path.published
    ∧ (loopBody cfg clock e { s with cmdvel_ := t1 }).2.cmdvel_.cmd
        = (loopBody cfg clock e { s with cmdvel_ := t2 }).2.cmdvel_.cmd
    ∧ (sink (loopBody cfg clock e { s with cmdvel_ := t1 }).2.trace
          = sink s.trace ++ [(loopBody cfg clock e { s with cmdvel_ := t1 }).2.cmdvel_]
        ∧ sink (loopBody cfg clock e { s with cmdvel_ := t2 }).2.trace
          = sink s.trace ++ [(loopBody cfg clock e { s with cmdvel_ := t2 }).2.cmdvel_])
    ∧ (t1.rest = t2.rest →
        (loopBody cfg clock e { s with cmdvel_ := t1 }).2
          = (loopBody cfg clock e { s with cmdvel_ := t2 }).2) := by
  have hpub2 : (loopBody cfg clock e { s with cmdvel_ := t2 }).1 = Path.published := by
    rw [loopBody_path_indep] at hpub ⊢
    exact hpub
  have e1 := loopBody_published_state cfg clock e _ hpub
  have e2 := loopBody_published_state cfg clock e _ hpub2
  refine ⟨hpub2, ?_, ⟨?_, ?_⟩, ?_⟩
  · rw [e1, e2]
    exact switchKey_cmd_indep cfg _ t1 t2
  · rw [e1]
    simp [sink, List.filterMap_append]
  · rw [e2]
    simp [sink, List.filterMap_append]
  · intro hrest
    have hsw : ∀ c : Int, switchKey cfg c t1 = switchKey cfg c t2 := fun c =>
      Twist.eq_of_cmd_rest _ _ (switchKey_cmd_indep cfg c t1 t2)
        (by rw [switchKey_rest, switchKey_rest, hrest])
    rw [e1, e2]
    simp only [hsw]

/-- C16 on the key `w` read one second after start, from the zero command and
from the command `{1, 2, 0}`. -/
theorem C16_published_command_independent_of_previous_witness :
    (loopBody Config.default secondsClock ⟨1, 1, 0x77⟩
        { setup TermiosH.linux sampleEnv (initState TermiosH.linux sampleTerm) with
          cmdvel_ := Twist.zero }).1 = Path.published
    ∧ (loopBody Config.default secondsClock ⟨1, 1, 0x77⟩
        { setup TermiosH.linux sampleEnv (initState TermiosH.linux sampleTerm) with
          cmdvel_ := ⟨⟨1, 2, 0⟩, ⟨0, 0, 0⟩⟩ }).1 = Path.published
    ∧ (loopBody Config.default secondsClock ⟨1, 1, 0x77⟩
        { setup TermiosH.linux sampleEnv (initState TermiosH.linux sampleTerm) with
          cmdvel_ := Twist.zero }).2
      = (loopBody Config.default secondsClock ⟨1, 1, 0x77⟩
        { setup TermiosH.linux sampleEnv (initState TermiosH.linux sampleTerm) with
          cmdvel_ := ⟨⟨1, 2, 0⟩, ⟨0, 0, 0⟩⟩ }).2 :=
  have hpub : (loopBody Config.default secondsClock ⟨1, 1, 0x77⟩
      { setup TermiosH.linux sampleEnv (initState TermiosH.linux sampleTerm) with
        cmdvel_ := Twist.zero }).1 = Path.published := by
    norm_num [loopBody, gateAndPublish, State.emit, setup, tcgetattrCooked, tcsetattrNow,
      sampleEnv, initState, secondsClock, gate_closed_iff]
  ⟨hpub,
    (C16_published_command_independent_of_previous Config.default secondsClock
      ⟨1, 1, 0x77⟩ (setup TermiosH.linux sampleEnv (initState TermiosH.linux sampleTerm))
      Twist.zero ⟨⟨1, 2, 0⟩, ⟨0, 0, 0⟩⟩ hpub).1,
    (C16_published_command_independent_of_previous Config.default secondsClock
      ⟨1, 1, 0x77⟩ (setup TermiosH.linux sampleEnv (initState TermiosH.linux sampleTerm))
      Twist.zero ⟨⟨1, 2, 0⟩, ⟨0, 0, 0⟩⟩ hpub).2.2.2 rfl⟩

/-- The `switch` reads only `walk_vel_` and `run_vel_` of the config. -/
theorem switchKey_congr (cfg1 cfg2 : Config) (hw : cfg1.walk_vel_ = cfg2.walk_vel_)
    (hr : cfg1.run_vel_ = cfg2.run_vel_) : switchKey cfg1 = switchKey cfg2 := by
  funext c t
  simp only [switchKey, hw, hr]

/-- The loop reads only `walk_vel_` and `run_vel_` of the config. -/
theorem runLoop_congr (cfg1 cfg2 : Config) (hw : cfg1.walk_vel_ = cfg2.walk_vel_)
    (hr : cfg1.run_vel_ = cfg2.run_vel_) (clock : Nat → ℚ) (es : List IterEnv) :
    ∀ s : State, runLoop cfg1 clock es s = runLoop cfg2 clock es s := by
  have hbody : ∀ (e : IterEnv) (s : State), loopBody cfg1 clock e s = loopBody cfg2 clock e s := by
    intro e s
    simp only [loopBody, gateAndPublish, switchKey_congr cfg1 cfg2 hw hr]
  induction es with
  | nil => intro s; rfl
  | cons e es ih =>
    intro s
    simp only [runLoop, hbody, ih]

/-- C17: the published commands do not depend on `yaw_rate` or `yaw_rate_run`:
two configs that agree on `walk_vel` and `run_vel` give, for every sequence of
loop events from every state, the same loop run, and for every environment
the same run of `main`, hence the same sink trace. -/
theorem C17_yaw_rates_unused (cfg1 cfg2 : Config) (hw : cfg1.walk_vel_ = cfg2.walk_vel_)
    (hr : cfg1.run_vel_ = cfg2.run_vel_) :
    (∀ (clock : Nat → ℚ) (es : List IterEnv) (s : State),
        sink (runLoop cfg1 clock es s).trace = sink (runLoop cfg2 clock es s).trace)
    ∧ (∀ (h : TermiosH) (env : Env) (term0 : Termios),
        main h cfg1 env term0 = main h cfg2 env term0
        ∧ sink (main h cfg1 env term0).2.trace = sink (main h cfg2 env term0).2.trace) := by
  have hmain : ∀ (h : TermiosH) (env : Env) (term0 : Termios),
      main h cfg1 env term0 = main h cfg2 env term0 := by
    intro h env term0
    simp only [main, keyboardLoop, runLoop_congr cfg1 cfg2 hw hr]
  refine ⟨fun clock es s => by rw [runLoop_congr cfg1 cfg2 hw hr], fun h env term0 => ?_⟩
  exact ⟨hmain h env term0, by rw [hmain]⟩

/-- C17 on the default config and a config with other yaw rates, in the run
`sampleEnv`, where the command of the key `w` is published. -/
theorem C17_yaw_rates_unused_witness :
    (Config.default.walk_vel_ = slowYawConfig.walk_vel_
      ∧ Config.default.run_vel_ = slowYawConfig.run_vel_
      ∧ Config.default ≠ slowYawConfig)
    ∧ sink (main TermiosH.linux Config.default sampleEnv sampleTerm).2.trace
        = sink (main TermiosH.linux slowYawConfig sampleEnv sampleTerm).2.trace :=
  ⟨⟨rfl, rfl, by simp [Config.default, slowYawConfig]; norm_num⟩,
    ((C17_yaw_rates_unused Config.default slowYawConfig rfl rfl).2
      TermiosH.linux sampleEnv sampleTerm).2⟩

/-! ## A `read` that returns 0 -/

/-- C18: when `poll` reports readiness and `read` returns 0, the iteration is
not an error (no `perror`, the loop goes on): `c` keeps the byte it held, the
iteration reaches the rate gate and, the gate being due (the rate check of the
code is false, as it is whenever the elapsed time is not below 0.1 s), publishes
the command the `switch` maps from that byte. In particular, after an iteration
whose key was read and dropped by the rate gate, it publishes the command of
that dropped key. -/
theorem C18_read_zero_replays_stored_key (cfg : Config) (clock : Nat → ℚ) (e : IterEnv)
    (s : State) (hnum : 0 < e.num) (hret : e.ret = 0)
    (hdue : ¬ (doubleSub (clock s.ticks) s.last_ctrl_time < double_0_1)) :
    ((loopBody cfg clock e s).1 = Path.published
      ∧ (loopBody cfg clock e s).1.continues = true
      ∧ (loopBody cfg clock e s).2.c = s.c
      ∧ (loopBody cfg clock e s).2.cmdvel_ = switchKey cfg (charToInt s.c) s.cmdvel_
      ∧ (loopBody cfg clock e s).2.trace
          = s.trace ++ [Effect.poll e.num, Effect.read 0,
              Effect.publish (switchKey cfg (charToInt s.c) s.cmdvel_)])
    ∧ ∀ (e1 : IterEnv) (s0 : State), 0 < e1.num → 0 < e1.ret →
        (loopBody cfg clock e1 s0).1 = Path.rateLimited → s = (loopBody cfg clock e1 s0).2 →
        sink (runLoop cfg clock [e1, e] s0).trace
          = sink s0.trace ++ [switchKey cfg (charToInt (e1.byte % 256)) s0.cmdvel_] := by
  have h1 : ¬ e.num < 0 := by omega
  have hbody : loopBody cfg clock e s
      = (Path.published,
          { s with cmdvel_ := switchKey cfg (charToInt s.c) s.cmdvel_
                   last_ctrl_time := clock (s.ticks + 1)
                   ticks := s.ticks + 1 + 1
                   trace := s.trace ++ [Effect.poll e.num] ++ [Effect.read 0]
                     ++ [Effect.publish (switchKey cfg (charToInt s.c) s.cmdvel_)] }) := by
    simp [loopBody, gateAndPublish, State.emit, h1, hnum, hret, hdue]
  refine ⟨?_, ?_⟩
  · rw [hbody]
    exact ⟨rfl, rfl, rfl, rfl, by simp⟩
  · intro e1 s0 hn1 hr1 hlim hs
    have h2 : ¬ e1.num < 0 := by omega
    have h3 : ¬ e1.ret < 0 := by omega
    have hgate : doubleSub (clock s0.ticks) s0.last_ctrl_time < double_0_1 := by
      by_contra hopen
      simp [loopBody, gateAndPublish, State.emit, h2, h3, hn1, hr1, hopen] at hlim
    have hfirst : loopBody cfg clock e1 s0
        = (Path.rateLimited,
            { s0 with trace := s0.trace ++ [Effect.poll e1.num] ++ [Effect.read e1.ret]
                      c := e1.byte % 256
                      ticks := s0.ticks + 1 }) := by
      simp [loopBody, gateAndPublish, State.emit, h2, h3, hn1, hr1, hgate]
    have hs2 : (loopBody cfg clock e1 s0).2 = s := hs.symm
    simp only [runLoop, hfirst, Path.continues, if_true]
    rw [hfirst] at hs2
    simp only at hs2
    rw [hs2, hbody]
    simp only [Path.continues, if_true]
    rw [← hs2]
    simp [sink, List.filterMap_append]

/-- C18 on a run in which the key `w` is read at start and dropped by the rate
gate, and the next `read`, one second later, returns 0: the command of `w`
is published. -/
theorem C18_read_zero_replays_stored_key_witness :
    ((0 : Int) < 1 ∧ (0 : Int) = 0
      ∧ ¬ (doubleSub (secondsClock (loopBody Config.default secondsClock ⟨1, 1, 0x77⟩
              (initState TermiosH.linux sampleTerm)).2.ticks)
            (loopBody Config.default secondsClock ⟨1, 1, 0x77⟩
                (initState TermiosH.linux sampleTerm)).2.last_ctrl_time < double_0_1))
    ∧ sink (runLoop Config.default secondsClock [⟨1, 1, 0x77⟩, ⟨1, 0, 0⟩]
          (initState TermiosH.linux sampleTerm)).trace
        = sink (initState TermiosH.linux sampleTerm).trace
          ++ [switchKey Config.default (charToInt (0x77 % 256))
                (initState TermiosH.linux sampleTerm).cmdvel_] :=
  have hlim : (loopBody Config.default secondsClock ⟨1, 1, 0x77⟩
      (initState TermiosH.linux sampleTerm)).1 = Path.rateLimited := by
    norm_num [loopBody, gateAndPublish, State.emit, secondsClock, initState, gate_closed_iff]
  have hdue : ¬ (doubleSub (secondsClock (loopBody Config.default secondsClock ⟨1, 1, 0x77⟩
        (initState TermiosH.linux sampleTerm)).2.ticks)
      (loopBody Config.default secondsClock ⟨1, 1, 0x77⟩
          (initState TermiosH.linux sampleTerm)).2.last_ctrl_time < double_0_1) := by
    apply gate_open_of_elapsed
    norm_num [loopBody, gateAndPublish, State.emit, secondsClock, initState, gate_closed_iff]
  ⟨⟨by decide, rfl, hdue⟩,
    (C18_read_zero_replays_stored_key Config.default secondsClock ⟨1, 0, 0⟩
      (loopBody Config.default secondsClock ⟨1, 1, 0x77⟩
        (initState TermiosH.linux sampleTerm)).2 (by decide) rfl hdue).2
      ⟨1, 1, 0x77⟩ (initState TermiosH.linux sampleTerm) (by decide) (by decide) hlim rfl⟩

end KeyboardControl
